import Mathlib

/-!
Shallow embedding of the yomlette scanner, template lexer fragments and
parser fragments, together with proofs that settle the frozen claims about
the natural-language specification.  Source strings and buffers are
represented as `List Char` (the Go code operates on `[]rune`).
-/

set_option maxRecDepth 10000

namespace Yomlette

/-- Position of a token (token package; modelled from the spec §3:
line ≥ 1, column ≥ 1, byte offset ≥ 0, indent-spaces ≥ 0, indent-level ≥ 0). -/
structure Position where
  line : Nat
  column : Nat
  offset : Nat
  indentNum : Nat
  indentLevel : Nat
deriving DecidableEq, Repr

/-- Token kinds (token package; modelled from the spec §6 "Token kinds"). -/
inductive TokenType where
  | nullT | boolT | stringT | singleQuote | doubleQuote | literal | folded
  | mappingStart | mappingEnd | sequenceStart | sequenceEnd | collectEntry
  | mappingValue | mappingKey | sequenceEntry | documentHeader | documentEnd
  | mergeKey | anchor | aliasT | tag | directive | comment | template
deriving DecidableEq, Repr

/-- A token (token package; modelled from the spec §3: kind, normalized
value, verbatim origin, position). -/
structure Token where
  type : TokenType
  value : List Char
  origin : List Char
  pos : Position
deriving DecidableEq, Repr

/-- Modelled from the spec: the token package is not under src.  `token.New`
inspects the value to choose a kind (§4.3 scalar canonicalization); only the
cases the theorems below rely on (null/bool detection) are distinguished and
every other value is classified as a plain string. -/
def classifyTokenType (v : List Char) : TokenType :=
  if v = ("null".toList) then .nullT
  else if v = ("true".toList) ∨ v = ("false".toList) then .boolT
  else .stringT

/-- Modelled from the spec: `token.New(value, origin, pos)`. -/
def tokenNew (v o : List Char) (p : Position) : Token :=
  ⟨classifyTokenType v, v, o, p⟩

/-- Modelled from the spec: `token.String(value, origin, pos)`. -/
def tokenString (v o : List Char) (p : Position) : Token := ⟨.stringT, v, o, p⟩

/-- Modelled from the spec: `token.SingleQuote(value, origin, pos)`. -/
def tokenSingleQuote (v o : List Char) (p : Position) : Token := ⟨.singleQuote, v, o, p⟩

/-- Modelled from the spec: `token.DoubleQuote(value, origin, pos)`. -/
def tokenDoubleQuote (v o : List Char) (p : Position) : Token := ⟨.doubleQuote, v, o, p⟩

/-- Modelled from the spec: `token.Literal(value, origin, pos)`. -/
def tokenLiteral (v o : List Char) (p : Position) : Token := ⟨.literal, v, o, p⟩

/-- Modelled from the spec: `token.Folded(value, origin, pos)`. -/
def tokenFolded (v o : List Char) (p : Position) : Token := ⟨.folded, v, o, p⟩

/-- Modelled from the spec: `token.Tag(value, origin, pos)`. -/
def tokenTag (v o : List Char) (p : Position) : Token := ⟨.tag, v, o, p⟩

/-- Modelled from the spec: `token.Comment(value, origin, pos)`. -/
def tokenComment (v o : List Char) (p : Position) : Token := ⟨.comment, v, o, p⟩

/-- Modelled from the spec: `token.Template(value, origin, pos)` (§3: an
opaque Template token). -/
def tokenTemplate (v o : List Char) (p : Position) : Token := ⟨.template, v, o, p⟩

/-- Modelled from the spec: `token.MappingStart(origin, pos)`, value is the
normalized text of the marker. -/
def tokenMappingStart (o : List Char) (p : Position) : Token := ⟨.mappingStart, ['{'], o, p⟩

/-- Modelled from the spec: `token.MappingEnd(origin, pos)`. -/
def tokenMappingEnd (o : List Char) (p : Position) : Token := ⟨.mappingEnd, ['}'], o, p⟩

/-- Modelled from the spec: `token.SequenceStart(origin, pos)`. -/
def tokenSequenceStart (o : List Char) (p : Position) : Token := ⟨.sequenceStart, ['['], o, p⟩

/-- Modelled from the spec: `token.SequenceEnd(origin, pos)`. -/
def tokenSequenceEnd (o : List Char) (p : Position) : Token := ⟨.sequenceEnd, [']'], o, p⟩

/-- Modelled from the spec: `token.CollectEntry(origin, pos)`. -/
def tokenCollectEntry (o : List Char) (p : Position) : Token := ⟨.collectEntry, [','], o, p⟩

/-- Modelled from the spec: `token.MappingValue(pos)`. -/
def tokenMappingValue (p : Position) : Token := ⟨.mappingValue, [':'], [':'], p⟩

/-- Modelled from the spec: `token.MappingKey(pos)`. -/
def tokenMappingKey (p : Position) : Token := ⟨.mappingKey, ['?'], ['?'], p⟩

/-- Modelled from the spec: `token.SequenceEntry(origin, pos)`. -/
def tokenSequenceEntry (o : List Char) (p : Position) : Token := ⟨.sequenceEntry, ['-'], o, p⟩

/-- Modelled from the spec: `token.DocumentHeader(pos)`. -/
def tokenDocumentHeader (p : Position) : Token :=
  ⟨.documentHeader, ['-', '-', '-'], ['-', '-', '-'], p⟩

/-- Modelled from the spec: `token.DocumentEnd(pos)`. -/
def tokenDocumentEnd (p : Position) : Token := ⟨.documentEnd, ['.', '.', '.'], ['.', '.', '.'], p⟩

/-- Modelled from the spec: `token.MergeKey(origin, pos)`. -/
def tokenMergeKey (o : List Char) (p : Position) : Token := ⟨.mergeKey, ['<', '<'], o, p⟩

/-- Modelled from the spec: `token.Anchor(origin, pos)`. -/
def tokenAnchor (o : List Char) (p : Position) : Token := ⟨.anchor, ['&'], o, p⟩

/-- Modelled from the spec: `token.Alias(origin, pos)`. -/
def tokenAlias (o : List Char) (p : Position) : Token := ⟨.aliasT, ['*'], o, p⟩

/-- Modelled from the spec: `token.Directive(pos)`. -/
def tokenDirective (p : Position) : Token := ⟨.directive, ['%'], ['%'], p⟩

/-- scanner.IndentState. -/
inductive IndentState where
  | equal | up | down | keep
deriving DecidableEq, Repr

/-- scanner.Context (scanner/context.go).  `bufPos` is a `*token.Position`
in Go, hence an `Option`. -/
structure Context where
  idx : Nat
  size : Nat
  notSpaceCharPos : Nat
  notSpaceOrgCharPos : Nat
  src : List Char
  bufPos : Option Position
  buf : List Char
  obuf : List Char
  tokens : List Token
  isRawFolded : Bool
  isLiteral : Bool
  isFolded : Bool
  isSingleLine : Bool
  literalOpt : List Char
deriving DecidableEq, Repr

/-- scanner.Scanner (scanner/scanner.go).  The flow nesting counters are Go
`int`s that the code can drive negative, hence `Int`. -/
structure Scanner where
  source : List Char
  sourcePos : Nat
  line : Nat
  column : Nat
  offset : Nat
  prevIndentLevel : Nat
  prevIndentNum : Nat
  prevIndentColumn : Nat
  docStartColumn : Nat
  indentLevel : Nat
  indentNum : Nat
  isFirstCharAtLine : Bool
  isAnchor : Bool
  isTemplate : Bool
  startedFlowSequenceNum : Int
  startedFlowMapNum : Int
  indentState : IndentState
deriving DecidableEq, Repr

/-- The zero value of `scanner.Scanner` (Go zero value: `var s Scanner`). -/
def zeroScanner : Scanner :=
  { source := [], sourcePos := 0, line := 0, column := 0, offset := 0
    prevIndentLevel := 0, prevIndentNum := 0, prevIndentColumn := 0
    docStartColumn := 0, indentLevel := 0, indentNum := 0
    isFirstCharAtLine := false, isAnchor := false, isTemplate := false
    startedFlowSequenceNum := 0, startedFlowMapNum := 0, indentState := .equal }

namespace Context

/-- Context.createContext. -/
def createContext : Context :=
  { idx := 0, size := 0, notSpaceCharPos := 0, notSpaceOrgCharPos := 0
    src := [], bufPos := none, buf := [], obuf := [], tokens := []
    isRawFolded := false, isLiteral := false, isFolded := false
    isSingleLine := true, literalOpt := [] }

/-- Context.resetBuffer. -/
def resetBuffer (c : Context) : Context :=
  { c with bufPos := none, buf := [], obuf := [], notSpaceCharPos := 0, notSpaceOrgCharPos := 0 }

/-- Context.reset.  Note that it does not clear the block-scalar flags. -/
def reset (c : Context) (src : List Char) : Context :=
  let c := { c with idx := 0, size := src.length, src := src, tokens := [] }
  let c := c.resetBuffer
  { c with isSingleLine := true }

/-- scanner.newContext.  The Go code draws the context from a `sync.Pool`;
the pool is a nondeterministic cache, so the embedding models the clean-pool
behaviour: a freshly created context passed through `reset`. -/
def newContext (src : List Char) : Context := createContext.reset src

/-- Context.isSaveIndentMode. -/
def isSaveIndentMode (c : Context) : Bool := c.isLiteral || c.isFolded || c.isRawFolded

/-- Context.breakScalar (the context part). -/
def breakScalar (c : Context) : Context :=
  { c with isLiteral := false, isRawFolded := false, isFolded := false, literalOpt := [] }

/-- Context.addToken (nil tokens are ignored). -/
def addToken (c : Context) (tk : Option Token) : Context :=
  match tk with
  | none => c
  | some tk => { c with tokens := c.tokens ++ [tk] }

/-- Context.addBuf. -/
def addBuf (c : Context) (r : Char) (pos : Position) : Context :=
  if c.buf.length = 0 ∧ r = ' ' then c
  else
    let c := if c.buf.length = 0 then { c with bufPos := some pos } else c
    let c := { c with buf := c.buf ++ [r] }
    if r ≠ ' ' ∧ r ≠ '\t' then { c with notSpaceCharPos := c.buf.length } else c

/-- Context.addOriginBuf. -/
def addOriginBuf (c : Context) (r : Char) : Context :=
  let c := { c with obuf := c.obuf ++ [r] }
  if r ≠ ' ' ∧ r ≠ '\t' then { c with notSpaceOrgCharPos := c.obuf.length } else c

/-- Context.appendOriginBuf. -/
def appendOriginBuf (c : Context) (rs : List Char) : Context :=
  rs.foldl addOriginBuf c

/-- Context.isBlockScalar. -/
def isBlockScalar (c : Context) : Bool := c.isLiteral || c.isFolded || c.isRawFolded

/-- Context.bufferedSrc.  This is where the chomping indicator is applied:
with literalOpt `-` a single trailing newline is removed. -/
def bufferedSrc (c : Context) : List Char :=
  let src := c.buf.take c.notSpaceCharPos
  if 0 < src.length ∧ src.getLast? = some '\n' ∧ c.isBlockScalar ∧ c.literalOpt = ['-'] then
    src.dropLast
  else src

/-- Context.removeRightSpaceFromBuf. -/
def removeRightSpaceFromBuf (c : Context) : Context :=
  let trimmedLen := c.notSpaceOrgCharPos
  let diff := c.obuf.length - trimmedLen
  if 0 < diff then
    let c := { c with obuf := c.obuf.take trimmedLen }
    { c with buf := c.bufferedSrc }
  else c

/-- Context.isEOS (`len(c.src)-1 <= c.idx`, with Go's `int` semantics the
empty-source case `-1 <= idx` is always true, matched by Nat truncation). -/
def isEOS (c : Context) : Bool := c.src.length - 1 ≤ c.idx

/-- Context.isNextEOS. -/
def isNextEOS (c : Context) : Bool := c.src.length - 1 ≤ c.idx + 1

/-- Context.next. -/
def next (c : Context) : Bool := c.idx < c.size

/-- Context.source(s, e): the substring `src[s:e]`. -/
def sourceRange (c : Context) (s e : Nat) : List Char := (c.src.take e).drop s

/-- Context.previousChar (rune(0) out of range). -/
def previousChar (c : Context) : Char :=
  if 0 < c.idx then c.src.getD (c.idx - 1) (Char.ofNat 0) else Char.ofNat 0

/-- Context.currentChar.  In Go this indexes `c.src[c.idx]` unguarded; it is
only called under a `next()` check, the default is unreachable there. -/
def currentChar (c : Context) : Char := c.src.getD c.idx (Char.ofNat 0)

/-- Context.nextChar (rune(0) out of range). -/
def nextChar (c : Context) : Char :=
  if c.idx + 1 < c.size then c.src.getD (c.idx + 1) (Char.ofNat 0) else Char.ofNat 0

/-- Context.repeatNum: the run length of `r` at indices `idx ≤ i < size`.
In every reachable context `size = src.length`. -/
def repeatNum (c : Context) (r : Char) : Nat :=
  (((c.src.drop c.idx).take (c.size - c.idx)).takeWhile (fun x => x = r)).length

/-- Context.progress. -/
def progress (c : Context) (num : Nat) : Context := { c with idx := c.idx + num }

/-- Context.nextPos. -/
def nextPos (c : Context) : Nat := c.idx + 1

/-- Context.existsBuffer. -/
def existsBuffer (c : Context) : Bool := c.bufferedSrc.length ≠ 0

/-- Context.bufferedToken.  Returns `none` (Go nil) at index 0 or with an
empty buffer, otherwise builds the token and resets the buffer.  Go
dereferences `c.bufPos`; it is always set when the buffer is non-empty, the
default below is unreachable. -/
def bufferedToken (c : Context) : Option Token × Context :=
  if c.idx = 0 then (none, c)
  else
    let source := c.bufferedSrc
    if source.length = 0 then (none, c)
    else
      let pos := c.bufPos.getD ⟨0, 0, 0, 0, 0⟩
      let tk := if c.isBlockScalar then tokenString source c.obuf pos
                else tokenNew source c.obuf pos
      (some tk, c.resetBuffer)

/-- Context.addBufferedTokenIfExists. -/
def addBufferedTokenIfExists (c : Context) : Context :=
  let (tk, c) := c.bufferedToken
  c.addToken tk

end Context

end Yomlette

namespace Yomlette

/-- Scanner.isNewLineChar. -/
def isNewLineChar (c : Char) : Bool := c == '\n' || c == '\r'

/-- Scanner.newLineCount: counts line breaks, folding `\r\n` into one. -/
def newLineCount : List Char → Nat
  | [] => 0
  | [c] => if c = '\r' ∨ c = '\n' then 1 else 0
  | c :: d :: rest =>
    if c = '\r' then
      if d = '\n' then 1 + newLineCount rest else 1 + newLineCount (d :: rest)
    else if c = '\n' then 1 + newLineCount (d :: rest)
    else newLineCount (d :: rest)

/-- strings.TrimRight(value, " ") as used by scanScalarHeader. -/
def trimRightSpaces (l : List Char) : List Char :=
  (l.reverse.dropWhile (fun c => c = ' ')).reverse

/-- The valid block-scalar header options: "", "+", "-", "0" … "9". -/
def isValidLiteralOpt (opt : List Char) : Bool :=
  opt == [] || opt == ['+'] || opt == ['-'] ||
  opt == ['0'] || opt == ['1'] || opt == ['2'] || opt == ['3'] || opt == ['4'] ||
  opt == ['5'] || opt == ['6'] || opt == ['7'] || opt == ['8'] || opt == ['9']

namespace Scanner

/-- Scanner.pos. -/
def pos (s : Scanner) : Position :=
  ⟨s.line, s.column, s.offset, s.indentNum, s.indentLevel⟩

/-- Scanner.progressColumn. -/
def progressColumn (s : Scanner) (ctx : Context) (num : Nat) : Scanner × Context :=
  ({ s with column := s.column + num, offset := s.offset + num }, ctx.progress num)

/-- Scanner.progressLine. -/
def progressLine (s : Scanner) (ctx : Context) : Scanner × Context :=
  ({ s with
      column := 1, line := s.line + 1, offset := s.offset + 1,
      indentNum := 0, isFirstCharAtLine := true, isAnchor := false }, ctx.progress 1)

/-- Scanner.isChangedToIndentStateDown. -/
def isChangedToIndentStateDown (s : Scanner) : Bool := s.indentState == .down

/-- Scanner.isChangedToIndentStateUp. -/
def isChangedToIndentStateUp (s : Scanner) : Bool := s.indentState == .up

/-- Scanner.isChangedToIndentStateEqual. -/
def isChangedToIndentStateEqual (s : Scanner) : Bool := s.indentState == .equal

/-- Scanner.isNeededKeepPreviousIndentNum. -/
def isNeededKeepPreviousIndentNum (s : Scanner) (ctx : Context) (c : Char) : Bool :=
  if !s.isChangedToIndentStateUp then false
  else if ctx.isBlockScalar then true
  else if c == '-' && ctx.existsBuffer then true
  else false

/-- The indent-number comparison block of Scanner.updateIndent. -/
def updateIndentLevel (s : Scanner) : Scanner :=
  if s.prevIndentNum < s.indentNum then
    { s with indentLevel := s.prevIndentLevel + 1, indentState := .up }
  else if s.prevIndentNum = s.indentNum then
    { s with indentLevel := s.prevIndentLevel, indentState := .equal }
  else
    let s := { s with indentState := .down }
    if 0 < s.prevIndentLevel then { s with indentLevel := s.prevIndentLevel - 1 } else s

/-- The prevIndentColumn override block of Scanner.updateIndent. -/
def updateIndentStateFromColumn (s : Scanner) : Scanner :=
  if 0 < s.prevIndentColumn then
    if s.prevIndentColumn < s.column then { s with indentState := .up }
    else if s.prevIndentColumn = s.column then { s with indentState := .equal }
    else { s with indentState := .down }
  else s

/-- Scanner.updateIndent. -/
def updateIndent (s : Scanner) (ctx : Context) (c : Char) : Scanner :=
  if s.isFirstCharAtLine && isNewLineChar c && ctx.isBlockScalar then s
  else if s.isFirstCharAtLine && c == ' ' then { s with indentNum := s.indentNum + 1 }
  else if !s.isFirstCharAtLine then { s with indentState := .keep }
  else
    let s := updateIndentLevel s
    let s := updateIndentStateFromColumn s
    let s := { s with isFirstCharAtLine := false }
    if s.isNeededKeepPreviousIndentNum ctx c then s
    else { s with
            prevIndentNum := s.indentNum, prevIndentColumn := 0,
            prevIndentLevel := s.indentLevel }

/-- Scanner.breakScalar. -/
def breakScalar (s : Scanner) (ctx : Context) : Scanner × Context :=
  ({ s with docStartColumn := 0 }, ctx.breakScalar)

/-- The loop of Scanner.scanSingleQuote; fuel bounds the remaining input. -/
def scanSingleQuoteGo (s : Scanner) :
    Nat → Context → Nat → List Char → Bool → Option Token × Nat × Context
  | 0, ctx, _, _, _ => (none, 0, ctx)
  | fuel + 1, ctx, length, value, isFirstLineChar =>
    if ctx.idx < ctx.src.length then
      let c := ctx.src.getD ctx.idx (Char.ofNat 0)
      let ctx := ctx.addOriginBuf c
      if isNewLineChar c then
        scanSingleQuoteGo s fuel { ctx with idx := ctx.idx + 1 } (length + 1) (value ++ [' ']) true
      else if c == ' ' && isFirstLineChar then
        scanSingleQuoteGo s fuel { ctx with idx := ctx.idx + 1 } (length + 1) value isFirstLineChar
      else if c == '\'' then
        let isEscaped := decide (ctx.idx + 1 < ctx.src.length) &&
          (ctx.src.getD (ctx.idx + 1) (Char.ofNat 0) == '\'')
        if !isEscaped then
          (some (tokenSingleQuote value ctx.obuf s.pos), length, ctx)
        else
          let ctx := ctx.addOriginBuf c
          scanSingleQuoteGo s fuel { ctx with idx := ctx.idx + 2 } (length + 2)
            (value ++ [c]) isFirstLineChar
      else
        scanSingleQuoteGo s fuel { ctx with idx := ctx.idx + 1 } (length + 1) (value ++ [c]) false
    else (none, 0, ctx)

/-- Scanner.scanSingleQuote. -/
def scanSingleQuote (s : Scanner) (ctx : Context) : Option Token × Nat × Context :=
  let ctx := ctx.addOriginBuf '\''
  let ctx := ctx.progress 1
  scanSingleQuoteGo s (ctx.src.length - ctx.idx + 1) ctx 1 [] false

/-- Scanner.hexToInt (Go rune arithmetic; may be negative for non-hex input). -/
def hexToInt (b : Char) : Int :=
  if 'A' ≤ b ∧ b ≤ 'F' then (b.toNat : Int) - ('A'.toNat : Int) + 10
  else if 'a' ≤ b ∧ b ≤ 'f' then (b.toNat : Int) - ('a'.toNat : Int) + 10
  else (b.toNat : Int) - ('0'.toNat : Int)

/-- Scanner.hexRunesToCode.  Go casts the sum to a rune; invalid or negative
code points (possible only for malformed escapes) are mapped to NUL here. -/
def hexRunesToCode (b : List Char) : Char :=
  let sum := (List.range b.length).foldl
    (fun acc i => acc + hexToInt (b.getD i (Char.ofNat 0)) * (2 ^ ((b.length - i - 1) * 4) : Int)) 0
  Char.ofNat sum.toNat

/-- Scanner.decodeEscapeSequence: length consumed after the backslash and
the decoded runes; (0, []) when the escape is not recognized. -/
def decodeEscapeSequence (ctx : Context) : Nat × List Char :=
  if ctx.src.length ≤ ctx.idx + 1 then (0, [])
  else
    let nextChar := ctx.src.getD (ctx.idx + 1) (Char.ofNat 0)
    if nextChar = 'b' then (1, ['\x08'])
    else if nextChar = 'e' then (1, ['\x1b'])
    else if nextChar = 'f' then (1, ['\x0c'])
    else if nextChar = 'n' then (1, ['\n'])
    else if nextChar = 'v' then (1, ['\x0b'])
    else if nextChar = 'L' then (1, [Char.ofNat 0xE2, Char.ofNat 0x80, Char.ofNat 0xA8])
    else if nextChar = 'N' then (1, [Char.ofNat 0xC2, Char.ofNat 0x85])
    else if nextChar = 'P' then (1, [Char.ofNat 0xE2, Char.ofNat 0x80, Char.ofNat 0xA9])
    else if nextChar = '_' then (1, [Char.ofNat 0xC2, Char.ofNat 0xA0])
    else if nextChar = '"' then (1, ['"'])
    else if nextChar = '\\' then (1, ['\\'])
    else if nextChar = 'x' then
      if ctx.src.length ≤ ctx.idx + 3 then (0, [])
      else (3, [hexRunesToCode (ctx.sourceRange (ctx.idx + 2) (ctx.idx + 4))])
    else if nextChar = 'u' then
      if ctx.src.length ≤ ctx.idx + 5 then (0, [])
      else (5, [hexRunesToCode (ctx.sourceRange (ctx.idx + 2) (ctx.idx + 6))])
    else if nextChar = 'U' then
      if ctx.src.length ≤ ctx.idx + 9 then (0, [])
      else (9, [hexRunesToCode (ctx.sourceRange (ctx.idx + 2) (ctx.idx + 10))])
    else (0, [])

/-- The loop of Scanner.scanDoubleQuote. -/
def scanDoubleQuoteGo (s : Scanner) :
    Nat → Context → Nat → List Char → Bool → Option Token × Nat × Context
  | 0, ctx, _, _, _ => (none, 0, ctx)
  | fuel + 1, ctx, length, value, isFirstLineChar =>
    if ctx.idx < ctx.src.length then
      let c := ctx.src.getD ctx.idx (Char.ofNat 0)
      let ctx := ctx.addOriginBuf c
      if isNewLineChar c then
        scanDoubleQuoteGo s fuel { ctx with idx := ctx.idx + 1 } (length + 1) (value ++ [' ']) true
      else if c == ' ' && isFirstLineChar then
        scanDoubleQuoteGo s fuel { ctx with idx := ctx.idx + 1 } (length + 1) value isFirstLineChar
      else if c == '\\' then
        let (escapeLen, runes) := decodeEscapeSequence ctx
        if escapeLen ≠ 0 then
          let ctx := ctx.appendOriginBuf (ctx.sourceRange (ctx.idx + 1) (ctx.idx + 1 + escapeLen))
          scanDoubleQuoteGo s fuel { ctx with idx := ctx.idx + escapeLen + 1 }
            (length + escapeLen + 1) (value ++ runes) false
        else
          scanDoubleQuoteGo s fuel { ctx with idx := ctx.idx + 1 } (length + 1)
            (value ++ ['\\']) false
      else if c == '"' then
        (some (tokenDoubleQuote value ctx.obuf s.pos), length, ctx)
      else
        scanDoubleQuoteGo s fuel { ctx with idx := ctx.idx + 1 } (length + 1) (value ++ [c]) false
    else (none, 0, ctx)

/-- Scanner.scanDoubleQuote. -/
def scanDoubleQuote (s : Scanner) (ctx : Context) : Option Token × Nat × Context :=
  let ctx := ctx.addOriginBuf '"'
  let ctx := ctx.progress 1
  scanDoubleQuoteGo s (ctx.src.length - ctx.idx + 1) ctx 1 [] false

/-- Scanner.scanQuote. -/
def scanQuote (s : Scanner) (ctx : Context) (ch : Char) : Option Token × Nat × Context :=
  if ch = '\'' then scanSingleQuote s ctx else scanDoubleQuote s ctx

/-- The loop of Scanner.scanTemplateString. -/
def scanTemplateStringGo : Nat → Context → Context
  | 0, ctx => ctx
  | fuel + 1, ctx =>
    if ctx.next then
      let c := ctx.currentChar
      let ctx := ctx.addOriginBuf c
      let ctx := ctx.progress 1
      if c == '\n' || (c == '"' && ctx.previousChar != '\\') then ctx
      else scanTemplateStringGo fuel ctx
    else ctx

/-- Scanner.scanTemplateString. -/
def scanTemplateString (ctx : Context) : Context :=
  let ctx := ctx.addOriginBuf '"'
  let ctx := ctx.progress 1
  scanTemplateStringGo (ctx.size - ctx.idx + 1) ctx

/-- The loop of Scanner.scanTemplate; `p0` is the index of the first `{`. -/
def scanTemplateGo (s : Scanner) (p0 : Nat) : Nat → Context → Option Token × Context
  | 0, ctx => (none, ctx)
  | fuel + 1, ctx =>
    if ctx.next then
      let c := ctx.currentChar
      if c == '}' && ctx.repeatNum '}' == 2 then
        let ctx := (ctx.addOriginBuf '}').addOriginBuf '}'
        let ctx := ctx.progress 2
        (some (tokenTemplate (ctx.sourceRange p0 ctx.idx) ctx.obuf s.pos), ctx)
      else if c == '"' then
        scanTemplateGo s p0 fuel (scanTemplateString ctx)
      else
        scanTemplateGo s p0 fuel ((ctx.addOriginBuf c).progress 1)
    else (none, ctx)

/-- Scanner.scanTemplate. -/
def scanTemplate (s : Scanner) (ctx : Context) : Option Token × Context :=
  let p0 := ctx.idx
  let ctx := (ctx.addOriginBuf '{').addOriginBuf '{'
  let ctx := ctx.progress 2
  scanTemplateGo s p0 (ctx.size - ctx.idx + 1) ctx

/-- The loop of Scanner.scanTag over the suffix `src[idx:]`; the second
argument is the running relative index. -/
def scanTagGo (s : Scanner) : List Char → Nat → Context → Option Token × Nat × Context
  | [], ridx, ctx => (none, ridx, ctx)
  | c :: rest, ridx, ctx =>
    let ctx := ctx.addOriginBuf c
    if c == ' ' || c == '\n' || c == '\r' then
      let value := ctx.sourceRange (ctx.idx - 1) (ctx.idx + ridx)
      (some (tokenTag value ctx.obuf s.pos), value.length, ctx)
    else scanTagGo s rest (ridx + 1) ctx

/-- Scanner.scanTag. -/
def scanTag (s : Scanner) (ctx : Context) : Option Token × Nat × Context :=
  let ctx := ctx.addOriginBuf '!'
  let ctx := ctx.progress 1
  scanTagGo s (ctx.src.drop ctx.idx) 0 ctx

/-- The loop of Scanner.scanComment over the suffix `src[idx:]`. -/
def scanCommentGo (s : Scanner) : List Char → Nat → Context → Option Token × Nat × Context
  | [], ridx, ctx => (none, ridx, ctx)
  | c :: rest, ridx, ctx =>
    let ctx := ctx.addOriginBuf c
    if c == '\n' || c == '\r' then
      if ctx.previousChar == '\\' then scanCommentGo s rest (ridx + 1) ctx
      else
        let value := ctx.sourceRange ctx.idx (ctx.idx + ridx)
        (some (tokenComment value ctx.obuf s.pos), value.length + 1, ctx)
    else scanCommentGo s rest (ridx + 1) ctx

/-- Scanner.scanComment. -/
def scanComment (s : Scanner) (ctx : Context) : Option Token × Nat × Context :=
  let ctx := ctx.addOriginBuf '#'
  let ctx := ctx.progress 1
  scanCommentGo s (ctx.src.drop ctx.idx) 0 ctx

/-- Scanner.scanScalar: one rune of block-scalar content. -/
def scanScalar (s : Scanner) (ctx : Context) (c : Char) : Scanner × Context :=
  let ctx := ctx.addOriginBuf c
  if ctx.isEOS then
    let ctx := if ctx.isLiteral then ctx.addBuf c s.pos else ctx
    let value := ctx.bufferedSrc
    let ctx := ctx.addToken (some (tokenString value ctx.obuf s.pos))
    let ctx := ctx.resetBuffer
    progressColumn s ctx 1
  else if isNewLineChar c then
    let ctx := if ctx.isLiteral then ctx.addBuf c s.pos else ctx.addBuf ' ' s.pos
    progressLine s ctx
  else if s.isFirstCharAtLine && c == ' ' then
    let ctx := if 0 < s.docStartColumn ∧ s.docStartColumn ≤ s.column then ctx.addBuf c s.pos
               else ctx
    progressColumn s ctx 1
  else
    let s := if s.docStartColumn = 0 then { s with docStartColumn := s.column } else s
    let ctx := ctx.addBuf c s.pos
    progressColumn s ctx 1

/-- The loop of Scanner.scanScalarHeader over the suffix after the header
character.  Returns `none` for the "invalid literal header" error. -/
def scanScalarHeaderGo (header : Char) (s : Scanner) :
    List Char → Nat → Context → Option Nat × Scanner × Context
  | [], _, ctx => (none, s, ctx)
  | c :: rest, ridx, ctx =>
    let ctx := ctx.addOriginBuf c
    if c == '\n' || c == '\r' then
      let value := ctx.sourceRange ctx.idx (ctx.idx + ridx)
      let opt := trimRightSpaces value
      if isValidLiteralOpt opt then
        let ctx :=
          if header = '|' then
            let ctx := ctx.addToken (some (tokenLiteral ('|' :: opt) ctx.obuf s.pos))
            { ctx with isLiteral := true }
          else if header = '>' then
            let ctx := ctx.addToken (some (tokenFolded ('>' :: opt) ctx.obuf s.pos))
            { ctx with isFolded := true }
          else ctx
        let s := { s with indentState := .keep }
        let ctx := ctx.resetBuffer
        let ctx := { ctx with literalOpt := opt }
        (some ridx, s, ctx)
      else scanScalarHeaderGo header s rest (ridx + 1) ctx
    else scanScalarHeaderGo header s rest (ridx + 1) ctx

/-- Scanner.scanScalarHeader. -/
def scanScalarHeader (s : Scanner) (ctx : Context) : Option Nat × Scanner × Context :=
  let header := ctx.currentChar
  let ctx := ctx.addOriginBuf header
  let ctx := ctx.progress 1
  scanScalarHeaderGo header s (ctx.src.drop ctx.idx) 0 ctx

/-- Scanner.scanNewLine. -/
def scanNewLine (s : Scanner) (ctx : Context) (c : Char) : Scanner × Context :=
  let (c, ctx) :=
    if c == '\r' && ctx.nextChar == '\n' then ('\n', (ctx.addOriginBuf '\r').progress 1)
    else (c, ctx)
  let ctx := ctx.removeRightSpaceFromBuf
  let ctx := if ctx.isEOS then ctx.addBufferedTokenIfExists
             else if s.isAnchor then ctx.addBufferedTokenIfExists
             else ctx
  let ctx := ctx.addBuf ' ' s.pos
  let ctx := ctx.addOriginBuf c
  let ctx := { ctx with isSingleLine := false }
  progressLine s ctx

end Scanner

end Yomlette

namespace Yomlette

namespace Scanner

/-- The `case '{'` body of the switch in Scanner.scan. -/
def scanSwitchLBrace (s : Scanner) (ctx : Context) (c : Char) (pos : Nat) :
    Option (Scanner × Context × Nat × Bool) :=
  if ctx.repeatNum '{' == 2 then
    let ctx := ctx.addBufferedTokenIfExists
    let (otk, ctx) := scanTemplate s ctx
    let ctx := ctx.addToken otk
    some (s, ctx, ctx.idx, true)
  else if !ctx.existsBuffer then
    let ctx := ctx.addOriginBuf c
    let ctx := ctx.addToken (some (tokenMappingStart ctx.obuf s.pos))
    let s := { s with startedFlowMapNum := s.startedFlowMapNum + 1 }
    let (s, ctx) := progressColumn s ctx 1
    some (s, ctx, pos, true)
  else none

/-- The `case '}'` body of the switch in Scanner.scan. -/
def scanSwitchRBrace (s : Scanner) (ctx : Context) (c : Char) (pos : Nat) :
    Option (Scanner × Context × Nat × Bool) :=
  if !ctx.existsBuffer || 0 < s.startedFlowMapNum then
    let (otk, ctx) := ctx.bufferedToken
    let ctx := ctx.addToken otk
    let ctx := ctx.addOriginBuf c
    let ctx := ctx.addToken (some (tokenMappingEnd ctx.obuf s.pos))
    let s := { s with startedFlowMapNum := s.startedFlowMapNum - 1 }
    let (s, ctx) := progressColumn s ctx 1
    some (s, ctx, pos, true)
  else none

/-- The `case '.'` body of the switch in Scanner.scan. -/
def scanSwitchDot (s : Scanner) (ctx : Context) (_c : Char) (pos : Nat) :
    Option (Scanner × Context × Nat × Bool) :=
  if s.indentNum = 0 ∧ ctx.repeatNum '.' = 3 then
    let ctx := ctx.addToken (some (tokenDocumentEnd s.pos))
    let (s, ctx) := progressColumn s ctx 3
    some (s, ctx, pos + 2, true)
  else none

/-- The `case '<'` body of the switch in Scanner.scan. -/
def scanSwitchLAngle (s : Scanner) (ctx : Context) (_c : Char) (pos : Nat) :
    Option (Scanner × Context × Nat × Bool) :=
  if ctx.repeatNum '<' == 2 then
    let s := { s with prevIndentColumn := s.column }
    let ctx := ctx.addToken (some (tokenMergeKey (ctx.obuf ++ ['<', '<']) s.pos))
    let (s, ctx) := progressColumn s ctx 1
    some (s, ctx, pos + 1, true)
  else none

/-- The `case '-'` body of the switch in Scanner.scan. -/
def scanSwitchDash (s : Scanner) (ctx : Context) (c : Char) (pos : Nat) :
    Option (Scanner × Context × Nat × Bool) :=
  if s.indentNum = 0 ∧ ctx.repeatNum '-' = 3 then
    let ctx := ctx.addBufferedTokenIfExists
    let ctx := ctx.addToken (some (tokenDocumentHeader s.pos))
    let (s, ctx) := progressColumn s ctx 3
    some (s, ctx, pos + 2, true)
  else if ctx.existsBuffer && s.isChangedToIndentStateUp then
    let ctx := { ctx with isRawFolded := true }
    let ctx := ctx.addBuf c s.pos
    let ctx := ctx.addOriginBuf c
    let (s, ctx) := progressColumn s ctx 1
    some (s, ctx, pos, false)
  else if ctx.existsBuffer then
    let ctx := ctx.addBuf c s.pos
    let ctx := ctx.addOriginBuf c
    let (s, ctx) := progressColumn s ctx 1
    some (s, ctx, pos, false)
  else
    let nc := ctx.nextChar
    if nc == ' ' || isNewLineChar nc then
      let ctx := ctx.addBufferedTokenIfExists
      let ctx := ctx.addOriginBuf c
      let tk := tokenSequenceEntry ctx.obuf s.pos
      let s := { s with prevIndentColumn := tk.pos.column }
      let ctx := ctx.addToken (some tk)
      let (s, ctx) := progressColumn s ctx 1
      some (s, ctx, pos, true)
    else none

/-- The `case '['` body of the switch in Scanner.scan. -/
def scanSwitchLBracket (s : Scanner) (ctx : Context) (c : Char) (pos : Nat) :
    Option (Scanner × Context × Nat × Bool) :=
  if !ctx.existsBuffer then
    let ctx := ctx.addOriginBuf c
    let ctx := ctx.addToken (some (tokenSequenceStart ctx.obuf s.pos))
    let s := { s with startedFlowSequenceNum := s.startedFlowSequenceNum + 1 }
    let (s, ctx) := progressColumn s ctx 1
    some (s, ctx, pos, true)
  else none

/-- The `case ']'` body of the switch in Scanner.scan. -/
def scanSwitchRBracket (s : Scanner) (ctx : Context) (c : Char) (pos : Nat) :
    Option (Scanner × Context × Nat × Bool) :=
  if !ctx.existsBuffer || 0 < s.startedFlowSequenceNum then
    let ctx := ctx.addBufferedTokenIfExists
    let ctx := ctx.addOriginBuf c
    let ctx := ctx.addToken (some (tokenSequenceEnd ctx.obuf s.pos))
    let s := { s with startedFlowSequenceNum := s.startedFlowSequenceNum - 1 }
    let (s, ctx) := progressColumn s ctx 1
    some (s, ctx, pos, true)
  else none

/-- The `case ','` body of the switch in Scanner.scan. -/
def scanSwitchComma (s : Scanner) (ctx : Context) (c : Char) (pos : Nat) :
    Option (Scanner × Context × Nat × Bool) :=
  if 0 < s.startedFlowSequenceNum ∨ 0 < s.startedFlowMapNum then
    let ctx := ctx.addBufferedTokenIfExists
    let ctx := ctx.addOriginBuf c
    let ctx := ctx.addToken (some (tokenCollectEntry ctx.obuf s.pos))
    let (s, ctx) := progressColumn s ctx 1
    some (s, ctx, pos, true)
  else none

/-- The `case ':'` body of the switch in Scanner.scan. -/
def scanSwitchColon (s : Scanner) (ctx : Context) (_c : Char) (pos : Nat) :
    Option (Scanner × Context × Nat × Bool) :=
  let nc := ctx.nextChar
  if 0 < s.startedFlowMapNum ∨ nc = ' ' ∨ isNewLineChar nc ∨ ctx.isNextEOS then
    let (otk, ctx) := ctx.bufferedToken
    let (s, ctx) :=
      match otk with
      | some tk => ({ s with prevIndentColumn := tk.pos.column }, ctx.addToken (some tk))
      | none => (s, ctx)
    let ctx := ctx.addToken (some (tokenMappingValue s.pos))
    let (s, ctx) := progressColumn s ctx 1
    some (s, ctx, pos, true)
  else none

/-- The `case '|', '>'` body of the switch in Scanner.scan. -/
def scanSwitchHeader (s : Scanner) (ctx : Context) (_c : Char) (pos : Nat) :
    Option (Scanner × Context × Nat × Bool) :=
  if !ctx.existsBuffer then
    match scanScalarHeader s ctx with
    | (none, s, ctx) => some (s, ctx, pos, true)
    | (some progressN, s, ctx) =>
      let (s, ctx) := progressColumn s ctx progressN
      let (s, ctx) := progressLine s ctx
      some (s, ctx, pos, false)
  else none

/-- The `case '!'` body of the switch in Scanner.scan. -/
def scanSwitchBang (s : Scanner) (ctx : Context) (_c : Char) (pos : Nat) :
    Option (Scanner × Context × Nat × Bool) :=
  if !ctx.existsBuffer then
    let (otk, progressN, ctx) := scanTag s ctx
    let ctx := ctx.addToken otk
    let (s, ctx) := progressColumn s ctx progressN
    let (s, ctx) := if isNewLineChar ctx.previousChar then progressLine s ctx else (s, ctx)
    some (s, ctx, pos + progressN, true)
  else none

/-- The `case '%'` body of the switch in Scanner.scan. -/
def scanSwitchPercent (s : Scanner) (ctx : Context) (_c : Char) (pos : Nat) :
    Option (Scanner × Context × Nat × Bool) :=
  if !ctx.existsBuffer && s.indentNum == 0 then
    let ctx := ctx.addToken (some (tokenDirective s.pos))
    let (s, ctx) := progressColumn s ctx 1
    some (s, ctx, pos, true)
  else none

/-- The `case '?'` body of the switch in Scanner.scan. -/
def scanSwitchQuestion (s : Scanner) (ctx : Context) (_c : Char) (pos : Nat) :
    Option (Scanner × Context × Nat × Bool) :=
  let nc := ctx.nextChar
  if !ctx.existsBuffer && nc == ' ' then
    let ctx := ctx.addToken (some (tokenMappingKey s.pos))
    let (s, ctx) := progressColumn s ctx 1
    some (s, ctx, pos, true)
  else none

/-- The `case '&'` body of the switch in Scanner.scan. -/
def scanSwitchAmp (s : Scanner) (ctx : Context) (c : Char) (pos : Nat) :
    Option (Scanner × Context × Nat × Bool) :=
  if !ctx.existsBuffer then
    let ctx := ctx.addBufferedTokenIfExists
    let ctx := ctx.addOriginBuf c
    let ctx := ctx.addToken (some (tokenAnchor ctx.obuf s.pos))
    let (s, ctx) := progressColumn s ctx 1
    let s := { s with isAnchor := true }
    some (s, ctx, pos, true)
  else none

/-- The `case '*'` body of the switch in Scanner.scan. -/
def scanSwitchStar (s : Scanner) (ctx : Context) (c : Char) (pos : Nat) :
    Option (Scanner × Context × Nat × Bool) :=
  if !ctx.existsBuffer then
    let ctx := ctx.addBufferedTokenIfExists
    let ctx := ctx.addOriginBuf c
    let ctx := ctx.addToken (some (tokenAlias ctx.obuf s.pos))
    let (s, ctx) := progressColumn s ctx 1
    some (s, ctx, pos, true)
  else none

/-- The `case '#'` body of the switch in Scanner.scan. -/
def scanSwitchHash (s : Scanner) (ctx : Context) (_c : Char) (pos : Nat) :
    Option (Scanner × Context × Nat × Bool) :=
  if !ctx.existsBuffer || ctx.previousChar == ' ' then
    let ctx := ctx.addBufferedTokenIfExists
    let (otk, progressN, ctx) := scanComment s ctx
    let ctx := ctx.addToken otk
    let (s, ctx) := progressColumn s ctx progressN
    let (s, ctx) := progressLine s ctx
    some (s, ctx, pos + progressN, true)
  else none

/-- The `case '\'', '"'` body of the switch in Scanner.scan. -/
def scanSwitchQuote (s : Scanner) (ctx : Context) (c : Char) (pos : Nat) :
    Option (Scanner × Context × Nat × Bool) :=
  if !ctx.existsBuffer then
    let (otk, progressN, ctx) := scanQuote s ctx c
    let ctx := ctx.addToken otk
    let (s, ctx) := progressColumn s ctx progressN
    some (s, ctx, pos + progressN, true)
  else none

/-- The `case ' '` body of the switch in Scanner.scan. -/
def scanSwitchSpace (s : Scanner) (ctx : Context) (c : Char) (pos : Nat) :
    Option (Scanner × Context × Nat × Bool) :=
  if ctx.isSaveIndentMode || (!s.isAnchor && !s.isFirstCharAtLine) then
    let ctx := ctx.addBuf c s.pos
    let ctx := ctx.addOriginBuf c
    let (s, ctx) := progressColumn s ctx 1
    some (s, ctx, pos, false)
  else if s.isFirstCharAtLine then
    let (s, ctx) := progressColumn s ctx 1
    let ctx := ctx.addOriginBuf c
    some (s, ctx, pos, false)
  else
    let ctx := ctx.addBufferedTokenIfExists
    let (s, ctx) := progressColumn s ctx 1
    let s := { s with isAnchor := false }
    some (s, ctx, pos, true)

/-- The body of the `switch c` statement inside Scanner.scan, dispatching
to the per-character cases above.  `none` means the switch fell through to
the trailing `addBuf`/`addOriginBuf`/`progressColumn` statements;
`some (s, ctx, pos, true)` is a `return pos`, `some (s, ctx, pos, false)`
a `continue`. -/
def scanSwitch (s : Scanner) (ctx : Context) (c : Char) (pos : Nat) :
    Option (Scanner × Context × Nat × Bool) :=
  if c == '{' then scanSwitchLBrace s ctx c pos
  else if c == '}' then scanSwitchRBrace s ctx c pos
  else if c == '.' then scanSwitchDot s ctx c pos
  else if c == '<' then scanSwitchLAngle s ctx c pos
  else if c == '-' then scanSwitchDash s ctx c pos
  else if c == '[' then scanSwitchLBracket s ctx c pos
  else if c == ']' then scanSwitchRBracket s ctx c pos
  else if c == ',' then scanSwitchComma s ctx c pos
  else if c == ':' then scanSwitchColon s ctx c pos
  else if c == '|' || c == '>' then scanSwitchHeader s ctx c pos
  else if c == '!' then scanSwitchBang s ctx c pos
  else if c == '%' then scanSwitchPercent s ctx c pos
  else if c == '?' then scanSwitchQuestion s ctx c pos
  else if c == '&' then scanSwitchAmp s ctx c pos
  else if c == '*' then scanSwitchStar s ctx c pos
  else if c == '#' then scanSwitchHash s ctx c pos
  else if c == '\'' || c == '"' then scanSwitchQuote s ctx c pos
  else if c == '\r' || c == '\n' then
    let (s, ctx) := scanNewLine s ctx c
    some (s, ctx, pos, false)
  else if c == ' ' then scanSwitchSpace s ctx c pos
  else none

/-- The block-scalar / indent-state handling at the top of the loop body of
Scanner.scan.  `none` means the rune was consumed by `scanScalar` and the
loop continues. -/
def indentPhase (s : Scanner) (ctx : Context) (_c : Char) : Option (Scanner × Context) :=
  if ctx.isBlockScalar then
    if s.isChangedToIndentStateEqual || s.isChangedToIndentStateDown then
      let ctx := ctx.addBufferedTokenIfExists
      some (breakScalar s ctx)
    else none
  else if s.isChangedToIndentStateDown then some (s, ctx.addBufferedTokenIfExists)
  else if s.isChangedToIndentStateEqual then
    if 0 < ctx.obuf.length ∧ newLineCount ctx.obuf ≤ 1 then
      some (s, ctx.addBufferedTokenIfExists)
    else some (s, ctx)
  else some (s, ctx)

/-- The loop of Scanner.scan; the accumulator is the named return `pos`.
Fuel exhaustion (unreachable with the fuel supplied by `scan`) returns the
state as-is. -/
def scanGo : Nat → Scanner → Context → Nat → Nat × Scanner × Context
  | 0, s, ctx, pos => (pos, s, ctx)
  | fuel + 1, s, ctx, pos =>
    if ctx.next then
      let pos := ctx.nextPos
      let c := ctx.currentChar
      let s := s.updateIndent ctx c
      match indentPhase s ctx c with
      | none =>
        let (s, ctx) := scanScalar s ctx c
        scanGo fuel s ctx pos
      | some (s, ctx) =>
        match scanSwitch s ctx c pos with
        | some (s, ctx, pos, true) => (pos, s, ctx)
        | some (s, ctx, pos, false) => scanGo fuel s ctx pos
        | none =>
          let ctx := ctx.addBuf c s.pos
          let ctx := ctx.addOriginBuf c
          let (s, ctx) := progressColumn s ctx 1
          scanGo fuel s ctx pos
    else (pos, s, ctx.addBufferedTokenIfExists)

/-- Scanner.scan.  Every loop iteration advances `ctx.idx` by at least one,
so `ctx.size + 1` units of fuel always run the loop to completion. -/
def scan (s : Scanner) (ctx : Context) : Nat × Scanner × Context :=
  scanGo (ctx.size + 1) s ctx 0

/-- Scanner.Init. -/
def init (s : Scanner) (text : List Char) : Scanner :=
  { s with
      source := text, sourcePos := 0, line := 1, column := 1, offset := 0,
      prevIndentLevel := 0, prevIndentNum := 0, prevIndentColumn := 0,
      indentLevel := 0, indentNum := 0, isFirstCharAtLine := true }

/-- Scanner.Scan.  The `io.EOF` sentinel is `none`. -/
def Scan (s : Scanner) : Option (List Token × Scanner) :=
  if s.source.length ≤ s.sourcePos then none
  else
    let ctx := Context.newContext (s.source.drop s.sourcePos)
    let (progressN, s, ctx) := scan s ctx
    some (ctx.tokens, { s with sourcePos := s.sourcePos + progressN })

end Scanner

/-- The loop of lexer.Tokenize; the Bool records whether the `io.EOF` break
was reached (true) or the fuel ran out (false). -/
def tokenizeGo : Nat → Scanner → List Token → List Token × Bool
  | 0, _, acc => (acc, false)
  | fuel + 1, s, acc =>
    match s.Scan with
    | none => (acc, true)
    | some (tks, s2) => tokenizeGo fuel s2 (acc ++ tks)

/-- lexer.Tokenize (src/unnamed/part_000), with the fuel that claim C9 shows
sufficient.  `token.Tokens.Add` is modelled from the spec as appending to the
ordered token sequence. -/
def tokenizeRun (src : List Char) : List Token × Bool :=
  tokenizeGo (src.length + 1) (zeroScanner.init src) []

/-- The token sequence produced by lexer.Tokenize. -/
def tokenize (src : List Char) : List Token := (tokenizeRun src).1

end Yomlette

namespace Yomlette

/-! Template lexer fragments (src/parser/error.go). -/

/-- parser.isSpace (template lexer): space or tab. -/
def isSpaceGo (r : Char) : Bool := r == ' ' || r == '\t'

/-- parser.isEndOfLine: carriage return or line feed. -/
def isEndOfLineGo (r : Char) : Bool := r == '\r' || r == '\n'

/-- parser.isAlphaNumeric: underscore, letter or digit.  Go uses
`unicode.IsLetter`/`unicode.IsDigit`; the embedding uses Lean's character
classes, which agree on the ASCII inputs the theorems use. -/
def isAlphaNumericGo (r : Char) : Bool := r == '_' || r.isAlpha || r.isDigit

/-- templateLexer.atTerminator.  `r` is the peeked rune (`none` is eof).
Go decodes the first rune of the right delimiter; the delimiter is never
empty (`lex` defaults it to the closing braces), so the `none` head case is
unreachable there. -/
def atTerminator (r : Option Char) (rightDelim : List Char) : Bool :=
  match r with
  | none => true
  | some c =>
    if isSpaceGo c || isEndOfLineGo c then true
    else if c == '.' || c == ',' || c == '|' || c == ':' || c == ')' || c == '(' then true
    else
      match rightDelim.head? with
      | some rd => rd == c
      | none => false

/-- Items emitted by the modelled fragment of the template lexer. -/
inductive ItemKind where
  | ivar | idot | ifield | iword
deriving DecidableEq, Repr

/-- parser.lexFieldOrVariable: the `.`/`$` has been scanned and `rest` is
the remaining input; absorb alphanumerics, then require a terminator,
otherwise fail with the "bad character" error. -/
def lexFieldOrVariableModel (isVar : Bool) (rest rightDelim : List Char) :
    Except (List Char) ItemKind :=
  if atTerminator rest.head? rightDelim then .ok (if isVar then .ivar else .idot)
  else
    let rest2 := rest.dropWhile isAlphaNumericGo
    if atTerminator rest2.head? rightDelim then .ok (if isVar then .ivar else .ifield)
    else .error ("bad character".toList)

/-- parser.lexIdentifier: absorb alphanumerics, then require a terminator,
otherwise fail with the "bad character" error; on success the word is
classified by the parser (keyword/bool/field/identifier), summarized here
as `iword`. -/
def lexIdentifierModel (input rightDelim : List Char) : Except (List Char) ItemKind :=
  let rest := input.dropWhile isAlphaNumericGo
  if !(atTerminator rest.head? rightDelim) then .error ("bad character".toList)
  else .ok .iword

/-- The terminator set exactly as claim C7 words it: "space, newline, `.`,
`,`, `|`, `:`, `)`, `(`, the first rune of the right delimiter, or EOF"
(reading "newline" as both line break characters). -/
def claimTerminatorC7 (r : Option Char) (rightDelim : List Char) : Bool :=
  match r with
  | none => true
  | some c =>
    c ∈ ([' ', '\n', '\r', '.', ',', '|', ':', ')', '('] : List Char) ||
      rightDelim.head? == some c

/-- The amended terminator set: claim C7's list extended with the tab
character (the code's `isSpace` accepts space and tab). -/
def amendedTerminatorC7 (r : Option Char) (rightDelim : List Char) : Bool :=
  match r with
  | none => true
  | some c =>
    c ∈ ([' ', '\t', '\n', '\r', '.', ',', '|', ':', ')', '('] : List Char) ||
      rightDelim.head? == some c

/-! Template variable scoping (src/parser/parser_template.go). -/

/-- strings.Split(name, ".") on rune lists. -/
def splitDot : List Char → List (List Char)
  | [] => [[]]
  | c :: rest =>
    if c = '.' then [] :: splitDot rest
    else
      match splitDot rest with
      | h :: t => (c :: h) :: t
      | [] => [[c]]

/-- ast.Variable(ident).Ident (src/ast/ast_template.go): the name split on
dots; the dollar sign is part of the first segment. -/
def astVariableIdent (name : List Char) : List (List Char) := splitDot name

/-- templateContext.useVar: succeeds iff the first segment of the variable
is in the declared-variables list, otherwise the "undefined variable"
error (modelled as `none`). -/
def useVar (vars : List (List Char)) (name : List Char) : Option (List (List Char)) :=
  let ident := astVariableIdent name
  if (ident.headD []) ∈ vars then some ident else none

/-- templateContext.startParse: `t.vars = []string{"$"}`. -/
def startParseVars : List (List Char) := [['$']]

/-- The operations the template parser performs on `t.vars`: a pipeline
declaration appends the variable's name; `popVars(n)` truncates to a length
that was captured earlier (always ≥ 1, the initial length). -/
inductive VarOp where
  | push (name : List Char)
  | popTo (n : Nat)

/-- One `t.vars` operation. -/
def applyVarOp (vars : List (List Char)) : VarOp → List (List Char)
  | .push name => vars ++ [name]
  | .popTo n => vars.take n

/-- The variable stack after a sequence of operations from `startParse`. -/
def runVarOps (ops : List VarOp) : List (List Char) :=
  ops.foldl applyVarOp startParseVars

/-- Captured lengths passed to popVars are at least 1 (the length at
`startParse`); `parseControl` restores `len(t.vars)` observed at entry. -/
def validVarOps (ops : List VarOp) : Prop :=
  ∀ op ∈ ops, ∀ n, op = .popTo n → 1 ≤ n

/-! Template-token dispatch in the parser
(src/parser/parser_template.go parseTemplate, src/parser/parser.go
createNullToken). -/

/-- The parser's token cursor.  Modelled from the spec: the parser context
type is not under src, only its callers are; it carries the token sequence
and the current index. -/
structure ParserContext where
  tokens : List Token
  idx : Nat
deriving DecidableEq, Repr

/-- Modelled from the spec: context.insertToken inserts a token into the
token stream at the given index. -/
def insertToken (ctx : ParserContext) (idx : Nat) (tk : Token) : ParserContext :=
  { ctx with tokens := ctx.tokens.take idx ++ [tk] ++ ctx.tokens.drop idx }

/-- parser.createNullToken: copy of the base token's position with the
column incremented, wrapped around `token.New("null", "null", &pos)`. -/
def createNullToken (base : Token) : Token :=
  tokenNew ("null".toList) ("null".toList) { base.pos with column := base.pos.column + 1 }

/-- Result nodes of a template parse, as far as the dispatch in
parser.parseTemplate observes them: `ast.Null(tk)` or any other node. -/
inductive ParsedNode where
  | nullNode (tk : Token)
  | someNode (id : Nat)
deriving DecidableEq, Repr

/-- The `switch len(t.root.Nodes)` dispatch at the end of
parser.parseTemplate (lines 53-63): zero nodes synthesize and insert a null
token; one node is returned; more are the "expected exactly one template
node" syntax error. -/
def dispatchTemplateRoot (tk : Token) (rootNodes : List ParsedNode) (ctx : ParserContext) :
    Except (List Char) (ParsedNode × ParserContext) :=
  match rootNodes with
  | [] =>
    let nullToken := createNullToken tk
    .ok (.nullNode nullToken, insertToken ctx ctx.idx nullToken)
  | [n] => .ok (n, ctx)
  | _ => .error ("expected exactly one template node".toList)

/-- Characters with no special role in Scanner.scan: not structural
punctuation, not quoting, not whitespace or line breaks.  A run of such
characters exercises only the plain-scalar buffering path. -/
def plainScalarChar (c : Char) : Prop :=
  c ∉ (['{', '}', '[', ']', ',', ':', '-', '.', '<', '|', '>', '!', '%',
        '?', '&', '*', '#', '\'', '"', '\r', '\n', ' ', '\t'] : List Char)

instance (c : Char) : Decidable (plainScalarChar c) := by
  unfold plainScalarChar; infer_instance

/-- The scanner/context state in the middle of scanning an all-plain input:
after `k` runes the scanner has advanced `k` columns. -/
def c1Scanner (src : List Char) (k : Nat) : Scanner :=
  { source := src, sourcePos := 0, line := 1, column := 1 + k, offset := k,
    prevIndentLevel := 0, prevIndentNum := 0, prevIndentColumn := 0,
    docStartColumn := 0, indentLevel := 0, indentNum := 0,
    isFirstCharAtLine := decide (k = 0), isAnchor := false, isTemplate := false,
    startedFlowSequenceNum := 0, startedFlowMapNum := 0,
    indentState := if k ≤ 1 then .equal else .keep }

/-- The context counterpart of `c1Scanner`: the first `k` runes are
buffered verbatim in both buffers. -/
def c1Context (src : List Char) (k : Nat) : Context :=
  { idx := k, size := src.length, notSpaceCharPos := k, notSpaceOrgCharPos := k,
    src := src, bufPos := if k = 0 then none else some ⟨1, 1, 0, 0, 0⟩,
    buf := src.take k, obuf := src.take k, tokens := [],
    isRawFolded := false, isLiteral := false, isFolded := false,
    isSingleLine := true, literalOpt := [] }

end Yomlette

namespace Yomlette

/-! Claim C1: origin round-trip. -/

/-- Claim C1 as stated is false: tokenizing "a\n" yields a single token
whose origin is "a"; the trailing newline after the last flushed token is
never attached to any origin, so the concatenation does not reconstruct
the input. -/
theorem c1_origin_roundtrip_counterexample :
    ((tokenize ("a\n".toList)).map Token.origin).flatten = ['a'] ∧
    ((tokenize ("a\n".toList)).map Token.origin).flatten ≠ ("a\n".toList) := by
  constructor
  · rfl
  · decide

/-! Claim C2: determinism / Init reset. -/

/-- Claim C2 as stated is false: Scanner.Init does not reset the
flow-nesting counters.  Scanning `{` leaves startedFlowMapNum = 1; after
Init("a}") the same Scanner emits ["a", MappingEnd] where a fresh Scanner
emits the single plain token "a}". -/
theorem c2_init_reset_counterexample :
    (tokenizeGo 3 (((zeroScanner.init ['{']).Scan.elim zeroScanner Prod.snd).init ['a', '}']) []).1
      ≠ tokenize ['a', '}'] := by
  decide

/-! Claim C3: chomping. -/

/-- Claim C3's default case is false: with no chomping indicator the block
scalar "|\n a\n\n" keeps both trailing newlines (value "a\n\n"), not
exactly one. -/
theorem c3_chomping_counterexample :
    (tokenize ("|\n a\n\n".toList)).map Token.value = [['|'], ['a', '\n', '\n']] ∧
    (tokenize ("|\n a\n\n".toList)).map Token.value ≠ [['|'], ['a', '\n']] := by
  constructor
  · rfl
  · decide

/-! Claim C4: template token value. -/

/-- Claim C4 as stated is false: the Template token's value includes the
outer delimiters (Go takes `src[pos:ctx.idx]` after progressing past the
closing braces), it is not the text strictly between them. -/
theorem c4_template_value_counterexample :
    (tokenize ['{', '{', 'x', '}', '}']).map Token.value = [['{', '{', 'x', '}', '}']] ∧
    (tokenize ['{', '{', 'x', '}', '}']).map Token.value ≠ [['x']] := by
  constructor
  · rfl
  · decide

/-! Claim C5: flow counters. -/

/-- Claim C5's non-negativity is false: a `]` at top level is scanned as
SequenceEnd and drives startedFlowSequenceNum to -1. -/
theorem c5_flow_counter_counterexample :
    ((zeroScanner.init [']']).Scan.map (Scanner.startedFlowSequenceNum ∘ Prod.snd)) =
      some (-1) := by
  decide

/-! Claim C7: template-lexer terminator counterexample. -/

/-- Claim C7 as stated is false at the tab character: after the variable
`$x` a tab is accepted by atTerminator (no "bad character" error), yet tab
is not in the claim's terminator list. -/
theorem c7_terminator_counterexample :
    lexFieldOrVariableModel true ['x', '\t'] ['}', '}'] = .ok .ivar ∧
    claimTerminatorC7 (some '\t') ['}', '}'] = false ∧
    atTerminator (some '\t') ['}', '}'] = true := by
  refine ⟨rfl, rfl, rfl⟩

end Yomlette

namespace Yomlette

/-- Claim C2 amended: Init resets the positional and indentation state but
not the flow-nesting counters, docStartColumn, the anchor/template flags or
the indent-state field; scanning is a deterministic function of the scanner
value, so any two scanners that also agree on those residual fields produce
identical token sequences after Init on the same input. -/
theorem c2_scan_deterministic_amended (s1 s2 : Scanner) (text : List Char) (fuel : Nat)
    (hseq : s1.startedFlowSequenceNum = s2.startedFlowSequenceNum)
    (hmap : s1.startedFlowMapNum = s2.startedFlowMapNum)
    (hdoc : s1.docStartColumn = s2.docStartColumn)
    (hanc : s1.isAnchor = s2.isAnchor)
    (htmp : s1.isTemplate = s2.isTemplate)
    (hind : s1.indentState = s2.indentState) :
    tokenizeGo fuel (s1.init text) [] = tokenizeGo fuel (s2.init text) [] := by
  have h : s1.init text = s2.init text := by
    cases s1; cases s2; simp_all [Scanner.init]
  rw [h]

/-- Witness for C2's amended theorem at a concrete pair of scanners that
differ only in already-reset fields. -/
theorem c2_scan_deterministic_amended_witness :
    tokenizeGo 2 (zeroScanner.init ['a']) [] =
      tokenizeGo 2 (({ zeroScanner with line := 7, column := 9 : Scanner }).init ['a']) [] :=
  c2_scan_deterministic_amended zeroScanner
    ({ zeroScanner with line := 7, column := 9 : Scanner }) ['a'] 2 rfl rfl rfl rfl rfl rfl

/-- Claim C3 amended: Context.bufferedSrc chomps per the stored indicator,
but the default keeps all trailing newlines just like `+`; only `-` strips,
and it strips exactly one trailing newline. -/
theorem c3_chomping_amended (ctx : Context) (hbs : ctx.isBlockScalar = true) :
    (ctx.literalOpt = ['-'] →
      (ctx.buf.take ctx.notSpaceCharPos).getLast? = some '\n' →
      ctx.bufferedSrc = (ctx.buf.take ctx.notSpaceCharPos).dropLast) ∧
    (ctx.literalOpt = ['+'] ∨ ctx.literalOpt = [] →
      ctx.bufferedSrc = ctx.buf.take ctx.notSpaceCharPos) := by
  constructor
  · intro hopt hlast
    have hlen : 0 < (ctx.buf.take ctx.notSpaceCharPos).length := by
      cases h : ctx.buf.take ctx.notSpaceCharPos
      · rw [h] at hlast; simp at hlast
      · simp [h]
    unfold Context.bufferedSrc
    rw [if_pos ⟨hlen, hlast, hbs, hopt⟩]
  · intro hopt
    rcases hopt with h | h <;> simp [Context.bufferedSrc, h]

/-- Witness for C3's amended theorem at concrete contexts. -/
theorem c3_chomping_amended_witness :
    (({ Context.createContext with
          isLiteral := true, literalOpt := ['-'],
          buf := ['a', '\n'], notSpaceCharPos := 2 : Context }).bufferedSrc =
      (['a', '\n'] : List Char).dropLast) ∧
    (({ Context.createContext with
          isLiteral := true, literalOpt := [],
          buf := ['a', '\n', '\n'], notSpaceCharPos := 3 : Context }).bufferedSrc =
      ['a', '\n', '\n']) := by
  constructor
  · exact (c3_chomping_amended _ (by decide)).1 rfl (by decide)
  · exact (c3_chomping_amended _ (by decide)).2 (Or.inr rfl)

end Yomlette

namespace Yomlette

/-- Claim C7 amended: after an identifier, field or variable the lexer
fails with "bad character" iff the next rune is not a terminator, and the
terminator set is the claim's list extended with the tab character (and
with carriage return read as a newline): space, tab, CR, LF, `.`, `,`,
`|`, `:`, `)`, `(`, the first rune of the right delimiter, or EOF. -/
theorem c7_terminator_amended :
    ∀ (rightDelim : List Char) (r : Option Char) (isVar : Bool) (rest input : List Char),
      atTerminator r rightDelim = amendedTerminatorC7 r rightDelim ∧
      ((lexFieldOrVariableModel isVar rest rightDelim).isOk = false ↔
        (atTerminator rest.head? rightDelim = false ∧
         atTerminator ((rest.dropWhile isAlphaNumericGo).head?) rightDelim = false)) ∧
      ((lexIdentifierModel input rightDelim).isOk = false ↔
        atTerminator ((input.dropWhile isAlphaNumericGo).head?) rightDelim = false) := by
  intro rightDelim r isVar rest input
  refine ⟨?_, ?_, ?_⟩
  · cases r with
    | none => rfl
    | some c =>
      simp only [atTerminator, amendedTerminatorC7]
      by_cases h1 : (isSpaceGo c || isEndOfLineGo c) = true
      · rw [if_pos h1]
        simp only [isSpaceGo, isEndOfLineGo, Bool.or_eq_true, beq_iff_eq] at h1
        rcases h1 with (h | h) | (h | h) <;> subst h <;> simp
      · rw [if_neg h1]
        by_cases h2 : (c == '.' || c == ',' || c == '|' || c == ':' || c == ')' || c == '(') = true
        · rw [if_pos h2]
          simp only [Bool.or_eq_true, beq_iff_eq] at h2
          rcases h2 with ((((h | h) | h) | h) | h) | h <;> subst h <;> simp
        · rw [if_neg h2]
          simp only [isSpaceGo, isEndOfLineGo, Bool.or_eq_true, beq_iff_eq, not_or] at h1 h2
          obtain ⟨⟨hs, ht⟩, hr, hn⟩ := h1
          obtain ⟨⟨⟨⟨⟨hd, hc⟩, hp⟩, hco⟩, hrp⟩, hlp⟩ := h2
          cases hd2 : rightDelim.head? with
          | none => simp [hs, ht, hr, hn, hd, hc, hp, hco, hrp, hlp]
          | some x => simp [hs, ht, hr, hn, hd, hc, hp, hco, hrp, hlp, BEq.comm]
  · unfold lexFieldOrVariableModel
    by_cases h1 : atTerminator rest.head? rightDelim = true
    · rw [if_pos h1]
      simp [Except.isOk, Except.toBool, h1]
    · rw [if_neg h1]
      rw [Bool.not_eq_true] at h1
      by_cases h2 : atTerminator ((rest.dropWhile isAlphaNumericGo).head?) rightDelim = true
      · rw [if_pos h2]
        simp [Except.isOk, Except.toBool, h1, h2]
      · rw [if_neg h2]
        rw [Bool.not_eq_true] at h2
        simp [Except.isOk, Except.toBool, h1, h2]
  · unfold lexIdentifierModel
    by_cases h1 : atTerminator ((input.dropWhile isAlphaNumericGo).head?) rightDelim = true
    · simp [Except.isOk, Except.toBool, h1]
    · rw [Bool.not_eq_true] at h1
      simp [Except.isOk, Except.toBool, h1]

/-- Witness for C7's amended theorem at concrete inputs. -/
theorem c7_terminator_amended_witness :
    atTerminator (some '\t') ['}', '}'] = amendedTerminatorC7 (some '\t') ['}', '}'] ∧
    ((lexFieldOrVariableModel true ['x', '+'] ['}', '}']).isOk = false ↔
      (atTerminator (some 'x') ['}', '}'] = false ∧
       atTerminator (some '+') ['}', '}'] = false)) :=
  ⟨(c7_terminator_amended ['}', '}'] (some '\t') true [] []).1,
    (c7_terminator_amended ['}', '}'] (some '\t') true ['x', '+'] []).2.1⟩

/-- Helper: starting from a stack headed by the root variable, any valid
sequence of push/popTo operations keeps the root at the head. -/
theorem foldl_applyVarOp_shape (ops : List VarOp) :
    ∀ t : List (List Char), (∀ op ∈ ops, ∀ n, op = .popTo n → 1 ≤ n) →
      ∃ t2, List.foldl applyVarOp (['$'] :: t) ops = ['$'] :: t2 := by
  induction ops with
  | nil => exact fun t _ => ⟨t, rfl⟩
  | cons op rest ih =>
    intro t hv
    have hrest : ∀ op ∈ rest, ∀ n, op = .popTo n → 1 ≤ n :=
      fun op h => hv op (List.mem_cons_of_mem _ h)
    cases op with
    | push name =>
      have : applyVarOp (['$'] :: t) (.push name) = ['$'] :: (t ++ [name]) := by
        simp [applyVarOp]
      rw [List.foldl_cons, this]
      exact ih (t ++ [name]) hrest
    | popTo n =>
      have hn : 1 ≤ n := hv _ (List.mem_cons_self _ _) n rfl
      obtain ⟨m, rfl⟩ : ∃ m, n = m + 1 := ⟨n - 1, by omega⟩
      have : applyVarOp (['$'] :: t) (.popTo (m + 1)) = ['$'] :: t.take m := by
        simp [applyVarOp]
      rw [List.foldl_cons, this]
      exact ih (t.take m) hrest

/-- The variable stack reachable from startParse always keeps `$` first. -/
theorem runVarOps_shape (ops : List VarOp) (h : validVarOps ops) :
    ∃ t, runVarOps ops = ['$'] :: t := by
  have := foldl_applyVarOp_shape ops [] h
  simpa [runVarOps, startParseVars] using this

/-- Claim C8: a variable term resolves iff its first segment is the root
`$` (always on the stack) or a declared, still-live variable. -/
theorem c8_variable_scoping (ops : List VarOp) (h : validVarOps ops) (name : List Char) :
    (useVar (runVarOps ops) ['$']).isSome = true ∧
    ((useVar (runVarOps ops) name).isSome = true ↔
      ((astVariableIdent name).headD [] = ['$'] ∨
        (astVariableIdent name).headD [] ∈ (runVarOps ops).drop 1)) := by
  obtain ⟨t, ht⟩ := runVarOps_shape ops h
  rw [ht]
  constructor
  · simp [useVar, astVariableIdent, splitDot]
  · unfold useVar
    by_cases hm : (astVariableIdent name).headD [] ∈ ('$' :: []) :: t
    · rw [if_pos hm]
      simp only [Option.isSome_some, true_iff]
      rcases List.mem_cons.mp hm with h1 | h1
      · exact Or.inl h1
      · exact Or.inr (by simpa using h1)
    · rw [if_neg hm]
      simp only [Option.isSome_none, Bool.false_eq_true, false_iff]
      intro hcon
      apply hm
      rcases hcon with h1 | h1
      · exact h1 ▸ List.mem_cons_self _ _
      · exact List.mem_cons_of_mem _ (by simpa using h1)

/-- Witness for C8 at a concrete operation sequence. -/
theorem c8_variable_scoping_witness :
    (useVar (runVarOps [.push ("$x".toList)]) ['$']).isSome = true ∧
    ((useVar (runVarOps [.push ("$x".toList)]) ("$x".toList)).isSome = true ↔
      ((astVariableIdent ("$x".toList)).headD [] = ['$'] ∨
        (astVariableIdent ("$x".toList)).headD [] ∈ (runVarOps [.push ("$x".toList)]).drop 1)) :=
  c8_variable_scoping [.push ("$x".toList)]
    (by intro op hop n hn; cases hop with
        | head => cases hn
        | tail _ h => cases h)
    ("$x".toList)

/-- Claim C10: an empty template body synthesizes a null token at the
template token's position with the column incremented and inserts it into
the token stream; a body with more than one node is the "expected exactly
one template node" syntax error. -/
theorem c10_template_empty_body (tk : Token) (ctx : ParserContext)
    (rootNodes : List ParsedNode) :
    (rootNodes = [] →
      dispatchTemplateRoot tk rootNodes ctx =
        .ok (.nullNode (createNullToken tk), insertToken ctx ctx.idx (createNullToken tk)) ∧
      (createNullToken tk).value = ("null".toList) ∧
      (createNullToken tk).pos.column = tk.pos.column + 1 ∧
      (createNullToken tk).pos.line = tk.pos.line ∧
      (insertToken ctx ctx.idx (createNullToken tk)).tokens =
        ctx.tokens.take ctx.idx ++ [createNullToken tk] ++ ctx.tokens.drop ctx.idx) ∧
    (2 ≤ rootNodes.length → ∃ e, dispatchTemplateRoot tk rootNodes ctx = .error e) := by
  constructor
  · rintro rfl
    refine ⟨rfl, rfl, rfl, rfl, rfl⟩
  · intro hlen
    match rootNodes, hlen with
    | n1 :: n2 :: rest, _ => exact ⟨_, rfl⟩

/-- Witness for C10 at a concrete token, context and node lists. -/
theorem c10_template_empty_body_witness :
    (dispatchTemplateRoot (tokenTemplate ['x'] ['x'] ⟨1, 3, 2, 0, 0⟩) []
        ⟨[], 0⟩ =
      .ok (.nullNode (createNullToken (tokenTemplate ['x'] ['x'] ⟨1, 3, 2, 0, 0⟩)),
        insertToken ⟨[], 0⟩ 0 (createNullToken (tokenTemplate ['x'] ['x'] ⟨1, 3, 2, 0, 0⟩)))) ∧
    (∃ e, dispatchTemplateRoot (tokenTemplate ['x'] ['x'] ⟨1, 3, 2, 0, 0⟩)
        [.someNode 0, .someNode 1] ⟨[], 0⟩ = .error e) :=
  ⟨((c10_template_empty_body (tokenTemplate ['x'] ['x'] ⟨1, 3, 2, 0, 0⟩) ⟨[], 0⟩ []).1 rfl).1,
    (c10_template_empty_body (tokenTemplate ['x'] ['x'] ⟨1, 3, 2, 0, 0⟩) ⟨[], 0⟩
      [.someNode 0, .someNode 1]).2 (by decide)⟩

end Yomlette

namespace Yomlette

/-- Claim C6 (code bug): the "invalid literal header" error computed by
scanScalarHeader is discarded by Scanner.scan (the Go source carries a
`TODO: returns syntax error object` there), so tokenization of an input
with an invalid block-scalar header completes without surfacing any error:
the header region is silently re-scanned as plain scalars. -/
theorem c6_header_error_swallowed :
    (Scanner.scanScalarHeader (zeroScanner.init ("|x\na".toList))
        (Context.newContext ("|x\na".toList))).1 = none ∧
    (tokenizeRun ("|x\na".toList)).2 = true ∧
    (tokenize ("|x\na".toList)).map Token.value = [['x'], ['a']] := by
  refine ⟨by rfl, by decide, by rfl⟩

namespace Context

@[simp] theorem progress_idx (c : Context) (n : Nat) : (c.progress n).idx = c.idx + n := rfl
@[simp] theorem progress_src (c : Context) (n : Nat) : (c.progress n).src = c.src := rfl
@[simp] theorem progress_size (c : Context) (n : Nat) : (c.progress n).size = c.size := rfl
@[simp] theorem progress_tokens (c : Context) (n : Nat) : (c.progress n).tokens = c.tokens := rfl

@[simp] theorem addOriginBuf_idx (c : Context) (r : Char) : (c.addOriginBuf r).idx = c.idx := by
  simp only [Context.addOriginBuf]
  repeat' split
  all_goals rfl
@[simp] theorem addOriginBuf_src (c : Context) (r : Char) : (c.addOriginBuf r).src = c.src := by
  simp only [Context.addOriginBuf]
  repeat' split
  all_goals rfl
@[simp] theorem addOriginBuf_size (c : Context) (r : Char) : (c.addOriginBuf r).size = c.size := by
  simp only [Context.addOriginBuf]
  repeat' split
  all_goals rfl
@[simp] theorem addOriginBuf_tokens (c : Context) (r : Char) :
    (c.addOriginBuf r).tokens = c.tokens := by
  simp only [Context.addOriginBuf]
  repeat' split
  all_goals rfl
@[simp] theorem addOriginBuf_obuf (c : Context) (r : Char) :
    (c.addOriginBuf r).obuf = c.obuf ++ [r] := by
  simp only [Context.addOriginBuf]
  repeat' split
  all_goals rfl

@[simp] theorem addBuf_idx (c : Context) (r : Char) (p : Position) :
    (c.addBuf r p).idx = c.idx := by
  simp only [Context.addBuf]
  repeat' split
  all_goals rfl
@[simp] theorem addBuf_src (c : Context) (r : Char) (p : Position) :
    (c.addBuf r p).src = c.src := by
  simp only [Context.addBuf]
  repeat' split
  all_goals rfl
@[simp] theorem addBuf_size (c : Context) (r : Char) (p : Position) :
    (c.addBuf r p).size = c.size := by
  simp only [Context.addBuf]
  repeat' split
  all_goals rfl
@[simp] theorem addBuf_tokens (c : Context) (r : Char) (p : Position) :
    (c.addBuf r p).tokens = c.tokens := by
  simp only [Context.addBuf]
  repeat' split
  all_goals rfl

@[simp] theorem addToken_idx (c : Context) (tk : Option Token) : (c.addToken tk).idx = c.idx := by
  cases tk <;> rfl
@[simp] theorem addToken_src (c : Context) (tk : Option Token) : (c.addToken tk).src = c.src := by
  cases tk <;> rfl
@[simp] theorem addToken_size (c : Context) (tk : Option Token) :
    (c.addToken tk).size = c.size := by
  cases tk <;> rfl
@[simp] theorem addToken_some_tokens (c : Context) (tk : Token) :
    (c.addToken (some tk)).tokens = c.tokens ++ [tk] := rfl

@[simp] theorem resetBuffer_idx (c : Context) : c.resetBuffer.idx = c.idx := rfl
@[simp] theorem resetBuffer_src (c : Context) : c.resetBuffer.src = c.src := rfl
@[simp] theorem resetBuffer_size (c : Context) : c.resetBuffer.size = c.size := rfl
@[simp] theorem resetBuffer_tokens (c : Context) : c.resetBuffer.tokens = c.tokens := rfl

@[simp] theorem bufferedToken_idx (c : Context) : c.bufferedToken.2.idx = c.idx := by
  simp only [Context.bufferedToken]
  repeat' split
  all_goals rfl
@[simp] theorem bufferedToken_src (c : Context) : c.bufferedToken.2.src = c.src := by
  simp only [Context.bufferedToken]
  repeat' split
  all_goals rfl
@[simp] theorem bufferedToken_size (c : Context) : c.bufferedToken.2.size = c.size := by
  simp only [Context.bufferedToken]
  repeat' split
  all_goals rfl
@[simp] theorem bufferedToken_tokens (c : Context) : c.bufferedToken.2.tokens = c.tokens := by
  simp only [Context.bufferedToken]
  repeat' split
  all_goals rfl

@[simp] theorem addBufferedTokenIfExists_idx (c : Context) :
    c.addBufferedTokenIfExists.idx = c.idx := by
  simp [Context.addBufferedTokenIfExists]
@[simp] theorem addBufferedTokenIfExists_src (c : Context) :
    c.addBufferedTokenIfExists.src = c.src := by
  simp [Context.addBufferedTokenIfExists]
@[simp] theorem addBufferedTokenIfExists_size (c : Context) :
    c.addBufferedTokenIfExists.size = c.size := by
  simp [Context.addBufferedTokenIfExists]

@[simp] theorem removeRightSpaceFromBuf_idx (c : Context) :
    c.removeRightSpaceFromBuf.idx = c.idx := by
  simp only [Context.removeRightSpaceFromBuf]
  repeat' split
  all_goals rfl
@[simp] theorem removeRightSpaceFromBuf_src (c : Context) :
    c.removeRightSpaceFromBuf.src = c.src := by
  simp only [Context.removeRightSpaceFromBuf]
  repeat' split
  all_goals rfl
@[simp] theorem removeRightSpaceFromBuf_size (c : Context) :
    c.removeRightSpaceFromBuf.size = c.size := by
  simp only [Context.removeRightSpaceFromBuf]
  repeat' split
  all_goals rfl
@[simp] theorem removeRightSpaceFromBuf_tokens (c : Context) :
    c.removeRightSpaceFromBuf.tokens = c.tokens := by
  simp only [Context.removeRightSpaceFromBuf]
  repeat' split
  all_goals rfl

@[simp] theorem breakScalar_idx (c : Context) : c.breakScalar.idx = c.idx := rfl
@[simp] theorem breakScalar_src (c : Context) : c.breakScalar.src = c.src := rfl
@[simp] theorem breakScalar_size (c : Context) : c.breakScalar.size = c.size := rfl
@[simp] theorem breakScalar_tokens (c : Context) : c.breakScalar.tokens = c.tokens := rfl

end Context

namespace Scanner

@[simp] theorem progressColumn_source (s : Scanner) (ctx : Context) (n : Nat) :
    (progressColumn s ctx n).1.source = s.source := rfl
@[simp] theorem progressColumn_sourcePos (s : Scanner) (ctx : Context) (n : Nat) :
    (progressColumn s ctx n).1.sourcePos = s.sourcePos := rfl
@[simp] theorem progressColumn_idx (s : Scanner) (ctx : Context) (n : Nat) :
    (progressColumn s ctx n).2.idx = ctx.idx + n := rfl
@[simp] theorem progressColumn_src (s : Scanner) (ctx : Context) (n : Nat) :
    (progressColumn s ctx n).2.src = ctx.src := rfl
@[simp] theorem progressColumn_size (s : Scanner) (ctx : Context) (n : Nat) :
    (progressColumn s ctx n).2.size = ctx.size := rfl
@[simp] theorem progressColumn_tokens (s : Scanner) (ctx : Context) (n : Nat) :
    (progressColumn s ctx n).2.tokens = ctx.tokens := rfl
@[simp] theorem progressColumn_flowMap (s : Scanner) (ctx : Context) (n : Nat) :
    (progressColumn s ctx n).1.startedFlowMapNum = s.startedFlowMapNum := rfl
@[simp] theorem progressColumn_flowSeq (s : Scanner) (ctx : Context) (n : Nat) :
    (progressColumn s ctx n).1.startedFlowSequenceNum = s.startedFlowSequenceNum := rfl

@[simp] theorem progressLine_source (s : Scanner) (ctx : Context) :
    (progressLine s ctx).1.source = s.source := rfl
@[simp] theorem progressLine_sourcePos (s : Scanner) (ctx : Context) :
    (progressLine s ctx).1.sourcePos = s.sourcePos := rfl
@[simp] theorem progressLine_idx (s : Scanner) (ctx : Context) :
    (progressLine s ctx).2.idx = ctx.idx + 1 := rfl
@[simp] theorem progressLine_src (s : Scanner) (ctx : Context) :
    (progressLine s ctx).2.src = ctx.src := rfl
@[simp] theorem progressLine_size (s : Scanner) (ctx : Context) :
    (progressLine s ctx).2.size = ctx.size := rfl
@[simp] theorem progressLine_tokens (s : Scanner) (ctx : Context) :
    (progressLine s ctx).2.tokens = ctx.tokens := rfl
@[simp] theorem progressLine_flowMap (s : Scanner) (ctx : Context) :
    (progressLine s ctx).1.startedFlowMapNum = s.startedFlowMapNum := rfl
@[simp] theorem progressLine_flowSeq (s : Scanner) (ctx : Context) :
    (progressLine s ctx).1.startedFlowSequenceNum = s.startedFlowSequenceNum := rfl

@[simp] theorem updateIndentLevel_source (s : Scanner) :
    (updateIndentLevel s).source = s.source := by
  simp only [updateIndentLevel]
  repeat' split
  all_goals rfl

@[simp] theorem updateIndentLevel_sourcePos (s : Scanner) :
    (updateIndentLevel s).sourcePos = s.sourcePos := by
  simp only [updateIndentLevel]
  repeat' split
  all_goals rfl

@[simp] theorem updateIndentLevel_flowMap (s : Scanner) :
    (updateIndentLevel s).startedFlowMapNum = s.startedFlowMapNum := by
  simp only [updateIndentLevel]
  repeat' split
  all_goals rfl

@[simp] theorem updateIndentLevel_flowSeq (s : Scanner) :
    (updateIndentLevel s).startedFlowSequenceNum = s.startedFlowSequenceNum := by
  simp only [updateIndentLevel]
  repeat' split
  all_goals rfl

@[simp] theorem updateIndentStateFromColumn_source (s : Scanner) :
    (updateIndentStateFromColumn s).source = s.source := by
  simp only [updateIndentStateFromColumn]
  repeat' split
  all_goals rfl

@[simp] theorem updateIndentStateFromColumn_sourcePos (s : Scanner) :
    (updateIndentStateFromColumn s).sourcePos = s.sourcePos := by
  simp only [updateIndentStateFromColumn]
  repeat' split
  all_goals rfl

@[simp] theorem updateIndentStateFromColumn_flowMap (s : Scanner) :
    (updateIndentStateFromColumn s).startedFlowMapNum = s.startedFlowMapNum := by
  simp only [updateIndentStateFromColumn]
  repeat' split
  all_goals rfl

@[simp] theorem updateIndentStateFromColumn_flowSeq (s : Scanner) :
    (updateIndentStateFromColumn s).startedFlowSequenceNum = s.startedFlowSequenceNum := by
  simp only [updateIndentStateFromColumn]
  repeat' split
  all_goals rfl

@[simp] theorem updateIndent_source (s : Scanner) (ctx : Context) (c : Char) :
    (updateIndent s ctx c).source = s.source := by
  simp only [updateIndent]
  split_ifs <;> simp

@[simp] theorem updateIndent_sourcePos (s : Scanner) (ctx : Context) (c : Char) :
    (updateIndent s ctx c).sourcePos = s.sourcePos := by
  simp only [updateIndent]
  split_ifs <;> simp

@[simp] theorem updateIndent_flowMap (s : Scanner) (ctx : Context) (c : Char) :
    (updateIndent s ctx c).startedFlowMapNum = s.startedFlowMapNum := by
  simp only [updateIndent]
  split_ifs <;> simp

@[simp] theorem updateIndent_flowSeq (s : Scanner) (ctx : Context) (c : Char) :
    (updateIndent s ctx c).startedFlowSequenceNum = s.startedFlowSequenceNum := by
  simp only [updateIndent]
  split_ifs <;> simp

end Scanner

end Yomlette

namespace Yomlette

/-- Claim C5 amended: the closing-brace and closing-bracket cases of
Scanner.scan always decrement the matching flow counter by exactly one and
emit the matching end token — also when the counter is already zero, so
the counters can become negative; the mismatched counter is untouched. -/
theorem c5_flow_counter_amended (s : Scanner) (ctx : Context) (pos : Nat) :
    ((ctx.existsBuffer = false ∨ 0 < s.startedFlowMapNum) →
      (Scanner.scanSwitch s ctx '}' pos).map
          (fun r => (r.1.startedFlowMapNum, r.1.startedFlowSequenceNum,
            (r.2.1.tokens.getLast?).map Token.type, r.2.2.2)) =
        some (s.startedFlowMapNum - 1, s.startedFlowSequenceNum, some .mappingEnd, true)) ∧
    ((ctx.existsBuffer = false ∨ 0 < s.startedFlowSequenceNum) →
      (Scanner.scanSwitch s ctx ']' pos).map
          (fun r => (r.1.startedFlowSequenceNum, r.1.startedFlowMapNum,
            (r.2.1.tokens.getLast?).map Token.type, r.2.2.2)) =
        some (s.startedFlowSequenceNum - 1, s.startedFlowMapNum, some .sequenceEnd, true)) := by
  constructor
  · intro h
    have hcond : (!ctx.existsBuffer || decide (0 < s.startedFlowMapNum)) = true := by
      rcases h with h | h <;> simp [h]
    simp only [Scanner.scanSwitch]
    rw [if_neg (by decide), if_pos (by decide)]
    unfold Scanner.scanSwitchRBrace
    rw [if_pos hcond]
    rcases hbt : ctx.bufferedToken with ⟨otk, ctxB⟩
    simp [tokenMappingEnd, List.getLast?_append]
  · intro h
    have hcond : (!ctx.existsBuffer || decide (0 < s.startedFlowSequenceNum)) = true := by
      rcases h with h | h <;> simp [h]
    simp only [Scanner.scanSwitch]
    rw [if_neg (by decide), if_neg (by decide), if_neg (by decide), if_neg (by decide),
      if_neg (by decide), if_neg (by decide), if_pos (by decide)]
    unfold Scanner.scanSwitchRBracket
    rw [if_pos hcond]
    simp [tokenSequenceEnd, List.getLast?_append]

/-- Witness for C5's amended theorem at a concrete scanner and context. -/
theorem c5_flow_counter_amended_witness :
    (Scanner.scanSwitch (zeroScanner.init ['}']) (Context.newContext ['}']) '}' 1).map
        (fun r => (r.1.startedFlowMapNum, r.1.startedFlowSequenceNum,
          (r.2.1.tokens.getLast?).map Token.type, r.2.2.2)) =
      some ((zeroScanner.init ['}']).startedFlowMapNum - 1,
        (zeroScanner.init ['}']).startedFlowSequenceNum, some .mappingEnd, true) :=
  (c5_flow_counter_amended (zeroScanner.init ['}']) (Context.newContext ['}']) 1).1
    (Or.inl (by decide))

end Yomlette

namespace Yomlette

/-- Facts extracted from a decomposition of the source at the cursor. -/
theorem drop_cons_facts (l : List Char) (i : Nat) (x : Char) (xs : List Char)
    (h : l.drop i = x :: xs) :
    i < l.length ∧ l[i]? = some x ∧ l.drop (i + 1) = xs := by
  have hlen : i < l.length := by
    by_contra hc
    push_neg at hc
    rw [List.drop_eq_nil_of_le hc] at h
    cases h
  have h2 : l.drop i = l[i] :: l.drop (i + 1) := List.drop_eq_getElem_cons hlen
  rw [h] at h2
  injection h2 with hx hxs
  refine ⟨hlen, ?_, hxs.symm⟩
  rw [List.getElem?_eq_getElem hlen]
  exact congrArg some hx.symm

namespace Context

/-- The current character read off a source decomposition. -/
theorem currentChar_eq (c : Context) (x : Char) (h : c.src[c.idx]? = some x) :
    c.currentChar = x := by
  simp [Context.currentChar, List.getD_eq_getElem?_getD, h]

/-- addOriginBuf ignores and preserves the cursor index. -/
theorem addOriginBuf_set_idx (c : Context) (r : Char) (j : Nat) :
    Context.addOriginBuf { c with idx := j } r = { c.addOriginBuf r with idx := j } := by
  simp only [Context.addOriginBuf]
  repeat' split
  all_goals rfl

theorem foldl_addOriginBuf_set_idx (xs : List Char) (c : Context) (j : Nat) :
    xs.foldl Context.addOriginBuf { c with idx := j } =
      { xs.foldl Context.addOriginBuf c with idx := j } := by
  induction xs generalizing c with
  | nil => rfl
  | cons x xs ih =>
    simp only [List.foldl_cons]
    rw [addOriginBuf_set_idx]
    exact ih _

@[simp] theorem foldl_addOriginBuf_obuf (xs : List Char) (c : Context) :
    (xs.foldl Context.addOriginBuf c).obuf = c.obuf ++ xs := by
  induction xs generalizing c with
  | nil => simp
  | cons x xs ih => simp [ih]

@[simp] theorem foldl_addOriginBuf_idx (xs : List Char) (c : Context) :
    (xs.foldl Context.addOriginBuf c).idx = c.idx := by
  induction xs generalizing c with
  | nil => rfl
  | cons x xs ih => simp [ih]

@[simp] theorem foldl_addOriginBuf_src (xs : List Char) (c : Context) :
    (xs.foldl Context.addOriginBuf c).src = c.src := by
  induction xs generalizing c with
  | nil => rfl
  | cons x xs ih => simp [ih]

@[simp] theorem foldl_addOriginBuf_size (xs : List Char) (c : Context) :
    (xs.foldl Context.addOriginBuf c).size = c.size := by
  induction xs generalizing c with
  | nil => rfl
  | cons x xs ih => simp [ih]

/-- repeatNum counts exactly two closing braces when a third does not
follow. -/
theorem repeatNum_closing_two (c : Context) (rest : List Char)
    (hsize : c.size = c.src.length)
    (hdrop : c.src.drop c.idx = '}' :: '}' :: rest)
    (hrest : rest.head? ≠ some '}') :
    c.repeatNum '}' = 2 := by
  unfold Context.repeatNum
  have hlen : (c.src.drop c.idx).length = c.src.length - c.idx := List.length_drop _ _
  have htake : (c.src.drop c.idx).take (c.size - c.idx) = c.src.drop c.idx := by
    rw [hsize, ← hlen, List.take_length]
  rw [htake, hdrop]
  cases rest with
  | nil => simp
  | cons r rs =>
    have hr : r ≠ '}' := by
      intro hcon
      exact hrest (by simp [hcon])
    simp [List.takeWhile_cons, hr]

end Context

namespace Scanner

/-- Running the template loop over a body with no closing brace or quote
consumes it verbatim and stops at the double closing brace. -/
theorem scanTemplateGo_run (s : Scanner) (p0 : Nat) :
    ∀ (mid : List Char) (fuel : Nat) (ctx : Context) (rest : List Char),
      ctx.size = ctx.src.length →
      ctx.src.drop ctx.idx = mid ++ '}' :: '}' :: rest →
      rest.head? ≠ some '}' →
      (∀ x ∈ mid, x ≠ '}' ∧ x ≠ '"') →
      mid.length + 1 ≤ fuel →
      scanTemplateGo s p0 fuel ctx =
        (some (tokenTemplate ((ctx.src.take (ctx.idx + mid.length + 2)).drop p0)
            (ctx.obuf ++ (mid ++ ['}', '}'])) s.pos),
          { (mid ++ ['}', '}']).foldl Context.addOriginBuf ctx with
              idx := ctx.idx + mid.length + 2 }) := by
  intro mid
  induction mid with
  | nil =>
    intro fuel ctx rest hsize hdrop hrest _ hfuel
    obtain ⟨f, rfl⟩ : ∃ f, fuel = f + 1 := ⟨fuel - 1, by omega⟩
    simp only [List.nil_append] at hdrop
    obtain ⟨hlt, hget, hdrop1⟩ := drop_cons_facts _ _ _ _ hdrop
    have hc : ctx.currentChar = '}' := Context.currentChar_eq ctx _ hget
    have hnext : ctx.next = true := by
      simp [Context.next, hsize]
      omega
    have hrep : ctx.repeatNum '}' = 2 := Context.repeatNum_closing_two ctx rest hsize hdrop hrest
    simp only [scanTemplateGo, hnext, if_true, hc]
    rw [if_pos (by simp [hrep])]
    have hprog : (((ctx.addOriginBuf '}').addOriginBuf '}').progress 2) =
        { (ctx.addOriginBuf '}').addOriginBuf '}' with idx := ctx.idx + 2 } := by
      simp [Context.progress]
    rw [hprog]
    simp [Context.sourceRange, List.foldl_cons]
  | cons x mid ih =>
    intro fuel ctx rest hsize hdrop hrest hmid hfuel
    obtain ⟨f, rfl⟩ : ∃ f, fuel = f + 1 := ⟨fuel - 1, by omega⟩
    rw [List.cons_append] at hdrop
    obtain ⟨hlt, hget, hdrop1⟩ := drop_cons_facts _ _ _ _ hdrop
    have hc : ctx.currentChar = x := Context.currentChar_eq ctx _ hget
    have hnext : ctx.next = true := by
      simp [Context.next, hsize]
      omega
    obtain ⟨hx1, hx2⟩ := hmid x (List.mem_cons_self _ _)
    simp only [scanTemplateGo, hnext, if_true, hc]
    rw [if_neg (by simp [hx1]), if_neg (by simp [hx2])]
    have hstep := ih f ((ctx.addOriginBuf x).progress 1) rest
      (by simp [hsize]) (by simpa using hdrop1) hrest
      (fun y hy => hmid y (List.mem_cons_of_mem _ hy)) (by simp at hfuel ⊢; omega)
    rw [hstep]
    have hidx : (ctx.addOriginBuf x).progress 1 =
        { ctx.addOriginBuf x with idx := ctx.idx + 1 } := by
      simp [Context.progress]
    rw [hidx, Context.foldl_addOriginBuf_set_idx]
    simp only [List.cons_append, List.foldl_cons, List.length_cons]
    have e1 : ctx.idx + 1 + mid.length + 2 = ctx.idx + (mid.length + 1) + 2 := by omega
    simp [e1]

end Scanner
end Yomlette

namespace Yomlette

/-- Claim C4 amended: the Template token's value is the region including
both delimiters (not the text strictly between them); its origin also
covers the delimiters (appended to whatever origin text was pending). -/
theorem c4_template_value_amended (s : Scanner) (ctx : Context) (mid rest : List Char)
    (hsize : ctx.size = ctx.src.length)
    (hdrop : ctx.src.drop ctx.idx = '{' :: '{' :: (mid ++ '}' :: '}' :: rest))
    (hmid : ∀ x ∈ mid, x ≠ '}' ∧ x ≠ '"')
    (hrest : rest.head? ≠ some '}') :
    ((Scanner.scanTemplate s ctx).1).map Token.value =
        some ('{' :: '{' :: (mid ++ ['}', '}'])) ∧
    ((Scanner.scanTemplate s ctx).1).map Token.origin =
        some (ctx.obuf ++ '{' :: '{' :: (mid ++ ['}', '}'])) ∧
    ((Scanner.scanTemplate s ctx).1).map Token.type = some .template := by
  obtain ⟨hlt0, hget0, hdrop0⟩ := drop_cons_facts _ _ _ _ hdrop
  obtain ⟨hlt1, hget1, hdrop1⟩ := drop_cons_facts _ _ _ _ hdrop0
  have hlendrop : (ctx.src.drop ctx.idx).length = ctx.src.length - ctx.idx :=
    List.length_drop _ _
  have hlen4 : ctx.idx + mid.length + 4 + rest.length = ctx.src.length := by
    rw [hdrop] at hlendrop
    simp at hlendrop
    omega
  have hrun := Scanner.scanTemplateGo_run s ctx.idx mid
    ((((ctx.addOriginBuf '{').addOriginBuf '{').progress 2).size -
      ((((ctx.addOriginBuf '{').addOriginBuf '{').progress 2)).idx + 1)
    (((ctx.addOriginBuf '{').addOriginBuf '{').progress 2) rest
    (by simp [hsize]) (by simpa using hdrop1) hrest hmid
    (by simp [hsize]; omega)
  have hmain : Scanner.scanTemplate s ctx =
      (some (tokenTemplate
          ((((((ctx.addOriginBuf '{').addOriginBuf '{').progress 2)).src.take
            (((((ctx.addOriginBuf '{').addOriginBuf '{').progress 2)).idx + mid.length + 2)).drop
              ctx.idx)
          (((((ctx.addOriginBuf '{').addOriginBuf '{').progress 2)).obuf ++
            (mid ++ ['}', '}'])) s.pos),
        { (mid ++ ['}', '}']).foldl Context.addOriginBuf
            (((ctx.addOriginBuf '{').addOriginBuf '{').progress 2) with
            idx := (((ctx.addOriginBuf '{').addOriginBuf '{').progress 2).idx +
              mid.length + 2 }) := by
    unfold Scanner.scanTemplate
    exact hrun
  rw [hmain]
  simp only [Option.map_some, tokenTemplate]
  have hval : ((((((ctx.addOriginBuf '{').addOriginBuf '{').progress 2)).src.take
      (((((ctx.addOriginBuf '{').addOriginBuf '{').progress 2)).idx + mid.length + 2)).drop
        ctx.idx) = '{' :: '{' :: (mid ++ ['}', '}']) := by
    simp only [Context.progress_src, Context.addOriginBuf_src, Context.progress_idx,
      Context.addOriginBuf_idx]
    rw [List.drop_take]
    have e : ctx.idx + 2 + mid.length + 2 - ctx.idx = mid.length + 4 := by omega
    rw [e, hdrop]
    have e2 : mid.length + 4 = (mid.length + 3) + 1 := by omega
    rw [e2, List.take_succ_cons]
    have e3 : mid.length + 3 = (mid.length + 2) + 1 := by omega
    rw [e3, List.take_succ_cons]
    have e4 : mid.length + 2 = mid.length + 2 := rfl
    rw [show mid.length + 2 = mid.length + 2 from rfl]
    rw [List.take_append 2]
    simp
  rw [hval]
  refine ⟨rfl, ?_, rfl⟩
  have hob : ((((ctx.addOriginBuf '{').addOriginBuf '{').progress 2)).obuf =
      ctx.obuf ++ ['{', '{'] := by
    show (((ctx.addOriginBuf '{').addOriginBuf '{')).obuf = ctx.obuf ++ ['{', '{']
    simp
  rw [hob]
  simp

/-- Witness for C4's amended theorem at a concrete template region. -/
theorem c4_template_value_amended_witness :
    ((Scanner.scanTemplate (zeroScanner.init ['{', '{', 'x', '}', '}'])
        (Context.newContext ['{', '{', 'x', '}', '}'])).1).map Token.value =
      some ('{' :: '{' :: (['x'] ++ ['}', '}'])) :=
  (c4_template_value_amended (zeroScanner.init ['{', '{', 'x', '}', '}'])
    (Context.newContext ['{', '{', 'x', '}', '}']) ['x'] []
    (by decide) (by decide) (by decide) (by decide)).1

end Yomlette

namespace Yomlette
namespace Scanner

@[simp] theorem scanGo_zero (s : Scanner) (ctx : Context) (acc : Nat) :
    scanGo 0 s ctx acc = (acc, s, ctx) := rfl

theorem scanGo_fst_not_next (fuel : Nat) (s : Scanner) (ctx : Context) (acc : Nat)
    (h : ctx.next = false) : (scanGo fuel s ctx acc).1 = acc := by
  cases fuel with
  | zero => rfl
  | succ f => simp [scanGo, h]

theorem scanScalar_idx (s : Scanner) (ctx : Context) (c : Char) :
    (scanScalar s ctx c).2.idx = ctx.idx + 1 := by
  simp only [scanScalar]
  repeat' split
  all_goals simp

theorem scanScalar_source (s : Scanner) (ctx : Context) (c : Char) :
    (scanScalar s ctx c).1.source = s.source := by
  simp only [scanScalar]
  repeat' split
  all_goals simp

theorem scanScalar_sourcePos (s : Scanner) (ctx : Context) (c : Char) :
    (scanScalar s ctx c).1.sourcePos = s.sourcePos := by
  simp only [scanScalar]
  repeat' split
  all_goals simp

theorem scanNewLine_idx (s : Scanner) (ctx : Context) (c : Char) :
    ctx.idx + 1 ≤ (scanNewLine s ctx c).2.idx := by
  simp only [scanNewLine]
  repeat' split
  all_goals simp

theorem scanNewLine_source (s : Scanner) (ctx : Context) (c : Char) :
    (scanNewLine s ctx c).1.source = s.source := by
  simp only [scanNewLine]
  repeat' split
  all_goals simp

theorem scanNewLine_sourcePos (s : Scanner) (ctx : Context) (c : Char) :
    (scanNewLine s ctx c).1.sourcePos = s.sourcePos := by
  simp only [scanNewLine]
  repeat' split
  all_goals simp

theorem scanTemplateStringGo_idx (fuel : Nat) (ctx : Context) :
    ctx.idx ≤ (scanTemplateStringGo fuel ctx).idx := by
  induction fuel generalizing ctx with
  | zero => simp [scanTemplateStringGo]
  | succ f ih =>
    simp only [scanTemplateStringGo]
    repeat' split
    · simp
    · have h := ih ((ctx.addOriginBuf ctx.currentChar).progress 1)
      simp only [Context.progress_idx, Context.addOriginBuf_idx] at h
      omega
    · simp

theorem scanTemplateString_idx (ctx : Context) :
    ctx.idx + 1 ≤ (scanTemplateString ctx).idx := by
  unfold scanTemplateString
  refine le_trans ?_ (scanTemplateStringGo_idx _ _)
  simp

theorem scanTemplateGo_idx (s : Scanner) (p0 fuel : Nat) (ctx : Context) :
    ctx.idx ≤ (scanTemplateGo s p0 fuel ctx).2.idx := by
  induction fuel generalizing ctx with
  | zero => simp [scanTemplateGo]
  | succ f ih =>
    simp only [scanTemplateGo]
    repeat' split
    · simp
    · have h1 := scanTemplateString_idx ctx
      have h2 := ih (scanTemplateString ctx)
      omega
    · have h := ih ((ctx.addOriginBuf ctx.currentChar).progress 1)
      simp only [Context.progress_idx, Context.addOriginBuf_idx] at h
      omega
    · simp

theorem scanTemplate_idx (s : Scanner) (ctx : Context) :
    ctx.idx + 2 ≤ (scanTemplate s ctx).2.idx := by
  unfold scanTemplate
  refine le_trans ?_ (scanTemplateGo_idx _ _ _ _)
  simp

theorem scanScalarHeaderGo_idx (header : Char) (s : Scanner) (l : List Char) (r : Nat)
    (ctx : Context) : (scanScalarHeaderGo header s l r ctx).2.2.idx = ctx.idx := by
  induction l generalizing r ctx with
  | nil => rfl
  | cons x xs ih =>
    simp only [scanScalarHeaderGo]
    repeat' split
    all_goals simp [ih]

theorem scanScalarHeaderGo_source (header : Char) (s : Scanner) (l : List Char) (r : Nat)
    (ctx : Context) : (scanScalarHeaderGo header s l r ctx).2.1.source = s.source := by
  induction l generalizing r ctx with
  | nil => rfl
  | cons x xs ih =>
    simp only [scanScalarHeaderGo]
    repeat' split
    all_goals simp [ih]

theorem scanScalarHeaderGo_sourcePos (header : Char) (s : Scanner) (l : List Char) (r : Nat)
    (ctx : Context) : (scanScalarHeaderGo header s l r ctx).2.1.sourcePos = s.sourcePos := by
  induction l generalizing r ctx with
  | nil => rfl
  | cons x xs ih =>
    simp only [scanScalarHeaderGo]
    repeat' split
    all_goals simp [ih]

theorem scanScalarHeader_idx (s : Scanner) (ctx : Context) :
    (scanScalarHeader s ctx).2.2.idx = ctx.idx + 1 := by
  unfold scanScalarHeader
  rw [scanScalarHeaderGo_idx]
  simp

theorem scanScalarHeader_source (s : Scanner) (ctx : Context) :
    (scanScalarHeader s ctx).2.1.source = s.source := by
  unfold scanScalarHeader
  rw [scanScalarHeaderGo_source]

theorem scanScalarHeader_sourcePos (s : Scanner) (ctx : Context) :
    (scanScalarHeader s ctx).2.1.sourcePos = s.sourcePos := by
  unfold scanScalarHeader
  rw [scanScalarHeaderGo_sourcePos]

/-- The invariant carried by every branch of the scan switch: the scanner's
source is unchanged, and when the accumulator `pos` is positive the branch
never returns a zero position. -/
def SwitchInv (s : Scanner) (pos : Nat) (r : Scanner × Context × Nat × Bool) : Prop :=
  (r.1.source = s.source ∧ r.1.sourcePos = s.sourcePos) ∧ (1 ≤ pos → 1 ≤ r.2.2.1)

theorem scanSwitchLBrace_inv (s : Scanner) (ctx : Context) (c : Char) (pos : Nat)
    (r : Scanner × Context × Nat × Bool) (h : scanSwitchLBrace s ctx c pos = some r) :
    SwitchInv s pos r := by
  unfold scanSwitchLBrace at h
  split at h
  · simp only [] at h
    rcases heq : scanTemplate s ctx.addBufferedTokenIfExists with ⟨otk, ctxT⟩
    rw [heq] at h
    injection h with h
    subst h
    refine ⟨⟨rfl, rfl⟩, fun _ => ?_⟩
    have h1 := scanTemplate_idx s ctx.addBufferedTokenIfExists
    rw [heq] at h1
    have h2 : ctx.addBufferedTokenIfExists.idx + 2 ≤ ctxT.idx := h1
    simp only [Context.addToken_idx]
    omega
  · split at h
    · injection h with h
      subst h
      exact ⟨by simp, fun hp => hp⟩
    · cases h

theorem scanSwitchRBrace_inv (s : Scanner) (ctx : Context) (c : Char) (pos : Nat)
    (r : Scanner × Context × Nat × Bool) (h : scanSwitchRBrace s ctx c pos = some r) :
    SwitchInv s pos r := by
  unfold scanSwitchRBrace at h
  split at h
  · simp only [] at h
    rcases heq : ctx.bufferedToken with ⟨otk, ctxB⟩
    rw [heq] at h
    injection h with h
    subst h
    exact ⟨by simp, fun hp => hp⟩
  · cases h

theorem scanSwitchDot_inv (s : Scanner) (ctx : Context) (c : Char) (pos : Nat)
    (r : Scanner × Context × Nat × Bool) (h : scanSwitchDot s ctx c pos = some r) :
    SwitchInv s pos r := by
  unfold scanSwitchDot at h
  split at h
  · injection h with h
    subst h
    exact ⟨by simp, fun hp => hp.trans (Nat.le_add_right pos 2)⟩
  · cases h

theorem scanSwitchLAngle_inv (s : Scanner) (ctx : Context) (c : Char) (pos : Nat)
    (r : Scanner × Context × Nat × Bool) (h : scanSwitchLAngle s ctx c pos = some r) :
    SwitchInv s pos r := by
  unfold scanSwitchLAngle at h
  split at h
  · injection h with h
    subst h
    exact ⟨by simp, fun hp => hp.trans (Nat.le_add_right pos 1)⟩
  · cases h

theorem scanSwitchDash_inv (s : Scanner) (ctx : Context) (c : Char) (pos : Nat)
    (r : Scanner × Context × Nat × Bool) (h : scanSwitchDash s ctx c pos = some r) :
    SwitchInv s pos r := by
  unfold scanSwitchDash at h
  simp only [] at h
  split at h
  · injection h with h
    subst h
    exact ⟨by simp, fun hp => hp.trans (Nat.le_add_right pos 2)⟩
  · split at h
    · injection h with h
      subst h
      exact ⟨by simp, fun hp => hp⟩
    · split at h
      · injection h with h
        subst h
        exact ⟨by simp, fun hp => hp⟩
      · split at h
        · injection h with h
          subst h
          exact ⟨by simp, fun hp => hp⟩
        · cases h

theorem scanSwitchLBracket_inv (s : Scanner) (ctx : Context) (c : Char) (pos : Nat)
    (r : Scanner × Context × Nat × Bool) (h : scanSwitchLBracket s ctx c pos = some r) :
    SwitchInv s pos r := by
  unfold scanSwitchLBracket at h
  split at h
  · injection h with h
    subst h
    exact ⟨by simp, fun hp => hp⟩
  · cases h

theorem scanSwitchRBracket_inv (s : Scanner) (ctx : Context) (c : Char) (pos : Nat)
    (r : Scanner × Context × Nat × Bool) (h : scanSwitchRBracket s ctx c pos = some r) :
    SwitchInv s pos r := by
  unfold scanSwitchRBracket at h
  split at h
  · injection h with h
    subst h
    exact ⟨by simp, fun hp => hp⟩
  · cases h

theorem scanSwitchComma_inv (s : Scanner) (ctx : Context) (c : Char) (pos : Nat)
    (r : Scanner × Context × Nat × Bool) (h : scanSwitchComma s ctx c pos = some r) :
    SwitchInv s pos r := by
  unfold scanSwitchComma at h
  split at h
  · injection h with h
    subst h
    exact ⟨by simp, fun hp => hp⟩
  · cases h

theorem scanSwitchColon_inv (s : Scanner) (ctx : Context) (c : Char) (pos : Nat)
    (r : Scanner × Context × Nat × Bool) (h : scanSwitchColon s ctx c pos = some r) :
    SwitchInv s pos r := by
  unfold scanSwitchColon at h
  simp only [] at h
  split at h
  · rcases heq : ctx.bufferedToken with ⟨otk, ctxB⟩
    rw [heq] at h
    cases otk with
    | none =>
      injection h with h
      subst h
      exact ⟨by simp, fun hp => hp⟩
    | some tk =>
      injection h with h
      subst h
      exact ⟨by simp, fun hp => hp⟩
  · cases h

theorem scanSwitchHeader_inv (s : Scanner) (ctx : Context) (c : Char) (pos : Nat)
    (r : Scanner × Context × Nat × Bool) (h : scanSwitchHeader s ctx c pos = some r) :
    SwitchInv s pos r := by
  unfold scanSwitchHeader at h
  split at h
  · rcases heq : scanScalarHeader s ctx with ⟨onn, s2, ctx2⟩
    have hsrc := scanScalarHeader_source s ctx
    have hsp := scanScalarHeader_sourcePos s ctx
    rw [heq] at hsrc hsp h
    cases onn with
    | none =>
      injection h with h
      subst h
      exact ⟨⟨hsrc, hsp⟩, fun hp => hp⟩
    | some n =>
      injection h with h
      subst h
      exact ⟨⟨by simp [show s2.source = s.source from hsrc],
        by simp [show s2.sourcePos = s.sourcePos from hsp]⟩, fun hp => hp⟩
  · cases h

theorem scanSwitchBang_inv (s : Scanner) (ctx : Context) (c : Char) (pos : Nat)
    (r : Scanner × Context × Nat × Bool) (h : scanSwitchBang s ctx c pos = some r) :
    SwitchInv s pos r := by
  unfold scanSwitchBang at h
  split at h
  · simp only [] at h
    rcases heq : scanTag s ctx with ⟨otk, pn, ctx2⟩
    rw [heq] at h
    split at h
    all_goals
      injection h with h
      subst h
      exact ⟨by simp, fun hp => hp.trans (Nat.le_add_right pos pn)⟩
  · cases h

theorem scanSwitchPercent_inv (s : Scanner) (ctx : Context) (c : Char) (pos : Nat)
    (r : Scanner × Context × Nat × Bool) (h : scanSwitchPercent s ctx c pos = some r) :
    SwitchInv s pos r := by
  unfold scanSwitchPercent at h
  split at h
  · injection h with h
    subst h
    exact ⟨by simp, fun hp => hp⟩
  · cases h

theorem scanSwitchQuestion_inv (s : Scanner) (ctx : Context) (c : Char) (pos : Nat)
    (r : Scanner × Context × Nat × Bool) (h : scanSwitchQuestion s ctx c pos = some r) :
    SwitchInv s pos r := by
  unfold scanSwitchQuestion at h
  simp only [] at h
  split at h
  · injection h with h
    subst h
    exact ⟨by simp, fun hp => hp⟩
  · cases h

theorem scanSwitchAmp_inv (s : Scanner) (ctx : Context) (c : Char) (pos : Nat)
    (r : Scanner × Context × Nat × Bool) (h : scanSwitchAmp s ctx c pos = some r) :
    SwitchInv s pos r := by
  unfold scanSwitchAmp at h
  split at h
  · injection h with h
    subst h
    exact ⟨by simp, fun hp => hp⟩
  · cases h

theorem scanSwitchStar_inv (s : Scanner) (ctx : Context) (c : Char) (pos : Nat)
    (r : Scanner × Context × Nat × Bool) (h : scanSwitchStar s ctx c pos = some r) :
    SwitchInv s pos r := by
  unfold scanSwitchStar at h
  split at h
  · injection h with h
    subst h
    exact ⟨by simp, fun hp => hp⟩
  · cases h

theorem scanSwitchHash_inv (s : Scanner) (ctx : Context) (c : Char) (pos : Nat)
    (r : Scanner × Context × Nat × Bool) (h : scanSwitchHash s ctx c pos = some r) :
    SwitchInv s pos r := by
  unfold scanSwitchHash at h
  split at h
  · simp only [] at h
    rcases heq : scanComment s ctx.addBufferedTokenIfExists with ⟨otk, pn, ctx2⟩
    rw [heq] at h
    injection h with h
    subst h
    exact ⟨by simp, fun hp => hp.trans (Nat.le_add_right pos pn)⟩
  · cases h

theorem scanSwitchQuote_inv (s : Scanner) (ctx : Context) (c : Char) (pos : Nat)
    (r : Scanner × Context × Nat × Bool) (h : scanSwitchQuote s ctx c pos = some r) :
    SwitchInv s pos r := by
  unfold scanSwitchQuote at h
  split at h
  · simp only [] at h
    rcases heq : scanQuote s ctx c with ⟨otk, pn, ctx2⟩
    rw [heq] at h
    injection h with h
    subst h
    exact ⟨by simp, fun hp => hp.trans (Nat.le_add_right pos pn)⟩
  · cases h

theorem scanSwitchSpace_inv (s : Scanner) (ctx : Context) (c : Char) (pos : Nat)
    (r : Scanner × Context × Nat × Bool) (h : scanSwitchSpace s ctx c pos = some r) :
    SwitchInv s pos r := by
  unfold scanSwitchSpace at h
  split at h
  · injection h with h
    subst h
    exact ⟨by simp, fun hp => hp⟩
  · split at h
    · simp only [] at h
      rcases heq : progressColumn s ctx 1 with ⟨s2, ctx2⟩
      rw [heq] at h
      injection h with h
      subst h
      have hs : s2.source = s.source := by
        have h2 := progressColumn_source s ctx 1
        rw [heq] at h2
        exact h2
      have hs2 : s2.sourcePos = s.sourcePos := by
        have h2 := progressColumn_sourcePos s ctx 1
        rw [heq] at h2
        exact h2
      exact ⟨⟨hs, hs2⟩, fun hp => hp⟩
    · injection h with h
      subst h
      exact ⟨by simp, fun hp => hp⟩

theorem scanSwitch_inv (s : Scanner) (ctx : Context) (c : Char) (pos : Nat)
    (r : Scanner × Context × Nat × Bool) (h : scanSwitch s ctx c pos = some r) :
    SwitchInv s pos r := by
  unfold scanSwitch at h
  by_cases h1 : (c == '{') = true
  · rw [if_pos h1] at h
    exact scanSwitchLBrace_inv s ctx c pos r h
  · rw [if_neg h1] at h
    by_cases h2 : (c == '}') = true
    · rw [if_pos h2] at h
      exact scanSwitchRBrace_inv s ctx c pos r h
    · rw [if_neg h2] at h
      by_cases h3 : (c == '.') = true
      · rw [if_pos h3] at h
        exact scanSwitchDot_inv s ctx c pos r h
      · rw [if_neg h3] at h
        by_cases h4 : (c == '<') = true
        · rw [if_pos h4] at h
          exact scanSwitchLAngle_inv s ctx c pos r h
        · rw [if_neg h4] at h
          by_cases h5 : (c == '-') = true
          · rw [if_pos h5] at h
            exact scanSwitchDash_inv s ctx c pos r h
          · rw [if_neg h5] at h
            by_cases h6 : (c == '[') = true
            · rw [if_pos h6] at h
              exact scanSwitchLBracket_inv s ctx c pos r h
            · rw [if_neg h6] at h
              by_cases h7 : (c == ']') = true
              · rw [if_pos h7] at h
                exact scanSwitchRBracket_inv s ctx c pos r h
              · rw [if_neg h7] at h
                by_cases h8 : (c == ',') = true
                · rw [if_pos h8] at h
                  exact scanSwitchComma_inv s ctx c pos r h
                · rw [if_neg h8] at h
                  by_cases h9 : (c == ':') = true
                  · rw [if_pos h9] at h
                    exact scanSwitchColon_inv s ctx c pos r h
                  · rw [if_neg h9] at h
                    by_cases h10 : (c == '|' || c == '>') = true
                    · rw [if_pos h10] at h
                      exact scanSwitchHeader_inv s ctx c pos r h
                    · rw [if_neg h10] at h
                      by_cases h11 : (c == '!') = true
                      · rw [if_pos h11] at h
                        exact scanSwitchBang_inv s ctx c pos r h
                      · rw [if_neg h11] at h
                        by_cases h12 : (c == '%') = true
                        · rw [if_pos h12] at h
                          exact scanSwitchPercent_inv s ctx c pos r h
                        · rw [if_neg h12] at h
                          by_cases h13 : (c == '?') = true
                          · rw [if_pos h13] at h
                            exact scanSwitchQuestion_inv s ctx c pos r h
                          · rw [if_neg h13] at h
                            by_cases h14 : (c == '&') = true
                            · rw [if_pos h14] at h
                              exact scanSwitchAmp_inv s ctx c pos r h
                            · rw [if_neg h14] at h
                              by_cases h15 : (c == '*') = true
                              · rw [if_pos h15] at h
                                exact scanSwitchStar_inv s ctx c pos r h
                              · rw [if_neg h15] at h
                                by_cases h16 : (c == '#') = true
                                · rw [if_pos h16] at h
                                  exact scanSwitchHash_inv s ctx c pos r h
                                · rw [if_neg h16] at h
                                  by_cases h17 : (c == '\'' || c == '"') = true
                                  · rw [if_pos h17] at h
                                    exact scanSwitchQuote_inv s ctx c pos r h
                                  · rw [if_neg h17] at h
                                    by_cases h18 : (c == '\r' || c == '\n') = true
                                    · rw [if_pos h18] at h
                                      simp only [] at h
                                      rcases heq : scanNewLine s ctx c with ⟨s2, ctx2⟩
                                      have hsrc := scanNewLine_source s ctx c
                                      have hsp := scanNewLine_sourcePos s ctx c
                                      rw [heq] at hsrc hsp h
                                      injection h with h
                                      subst h
                                      exact ⟨⟨hsrc, hsp⟩, fun hp => hp⟩
                                    · rw [if_neg h18] at h
                                      by_cases h19 : (c == ' ') = true
                                      · rw [if_pos h19] at h
                                        exact scanSwitchSpace_inv s ctx c pos r h
                                      · rw [if_neg h19] at h
                                        cases h


theorem indentPhase_pres (s : Scanner) (ctx : Context) (c : Char)
    (p : Scanner × Context) (h : indentPhase s ctx c = some p) :
    p.1.source = s.source ∧ p.1.sourcePos = s.sourcePos := by
  unfold indentPhase at h
  repeat' split at h
  all_goals try cases h
  all_goals exact ⟨by simp [Scanner.breakScalar], by simp [Scanner.breakScalar]⟩

theorem scanGo_acc_ge (fuel : Nat) :
    ∀ (s : Scanner) (ctx : Context) (acc : Nat), 1 ≤ acc → 1 ≤ (scanGo fuel s ctx acc).1 := by
  induction fuel with
  | zero =>
    intro s ctx acc h
    simpa using h
  | succ f ih =>
    intro s ctx acc h
    simp only [scanGo]
    by_cases hn : ctx.next = true
    · rw [if_pos hn]
      rcases hip : indentPhase (s.updateIndent ctx ctx.currentChar) ctx ctx.currentChar with
          _ | ⟨s2, ctx2⟩
      · simp only [hip]
        rcases hss : scanScalar (s.updateIndent ctx ctx.currentChar) ctx ctx.currentChar with
            ⟨s3, ctx3⟩
        simp only [hss]
        exact ih _ _ _ (by simp only [Context.nextPos]; omega)
      · simp only [hip]
        rcases hsw : scanSwitch s2 ctx2 ctx.currentChar ctx.nextPos with _ | ⟨s4, ctx4, pos4, b⟩
        · simp only [hsw]
          exact ih _ _ _ (by simp only [Context.nextPos]; omega)
        · have hi := scanSwitch_inv s2 ctx2 ctx.currentChar ctx.nextPos _ hsw
          have hpos : 1 ≤ pos4 := hi.2 (by simp only [Context.nextPos]; omega)
          cases b
          · simp only [hsw]
            exact ih _ _ _ hpos
          · simp only [hsw]
            exact hpos
    · rw [if_neg hn]
      exact h

theorem scanGo_pres (fuel : Nat) :
    ∀ (s : Scanner) (ctx : Context) (acc : Nat),
      (scanGo fuel s ctx acc).2.1.source = s.source ∧
      (scanGo fuel s ctx acc).2.1.sourcePos = s.sourcePos := by
  induction fuel with
  | zero =>
    intro s ctx acc
    exact ⟨rfl, rfl⟩
  | succ f ih =>
    intro s ctx acc
    simp only [scanGo]
    by_cases hn : ctx.next = true
    · rw [if_pos hn]
      rcases hip : indentPhase (s.updateIndent ctx ctx.currentChar) ctx ctx.currentChar with
          _ | ⟨s2, ctx2⟩
      · simp only [hip]
        rcases hss : scanScalar (s.updateIndent ctx ctx.currentChar) ctx ctx.currentChar with
            ⟨s3, ctx3⟩
        simp only [hss]
        have h3src : s3.source = s.source := by
          have hx := scanScalar_source (s.updateIndent ctx ctx.currentChar) ctx ctx.currentChar
          rw [hss] at hx
          simpa using hx
        have h3sp : s3.sourcePos = s.sourcePos := by
          have hx := scanScalar_sourcePos (s.updateIndent ctx ctx.currentChar) ctx ctx.currentChar
          rw [hss] at hx
          simpa using hx
        exact ⟨(ih s3 ctx3 ctx.nextPos).1.trans h3src, (ih s3 ctx3 ctx.nextPos).2.trans h3sp⟩
      · have hips := indentPhase_pres _ _ _ _ hip
        have h2src : s2.source = s.source := by simpa using hips.1
        have h2sp : s2.sourcePos = s.sourcePos := by simpa using hips.2
        simp only [hip]
        rcases hsw : scanSwitch s2 ctx2 ctx.currentChar ctx.nextPos with _ | ⟨s4, ctx4, pos4, b⟩
        · simp only [hsw]
          refine ⟨(ih _ _ _).1.trans h2src, (ih _ _ _).2.trans h2sp⟩
        · have hi := scanSwitch_inv s2 ctx2 ctx.currentChar ctx.nextPos _ hsw
          have h4src : s4.source = s2.source := hi.1.1
          have h4sp : s4.sourcePos = s2.sourcePos := hi.1.2
          cases b
          · simp only [hsw]
            exact ⟨(ih s4 ctx4 pos4).1.trans (h4src.trans h2src),
              (ih s4 ctx4 pos4).2.trans (h4sp.trans h2sp)⟩
          · simp only [hsw]
            exact ⟨h4src.trans h2src, h4sp.trans h2sp⟩
    · rw [if_neg hn]
      exact ⟨rfl, rfl⟩

theorem scan_pos (s : Scanner) (ctx : Context) (h : ctx.next = true) : 1 ≤ (scan s ctx).1 := by
  unfold scan
  simp only [scanGo]
  rw [if_pos h]
  rcases hip : indentPhase (s.updateIndent ctx ctx.currentChar) ctx ctx.currentChar with
      _ | ⟨s2, ctx2⟩
  · simp only [hip]
    rcases hss : scanScalar (s.updateIndent ctx ctx.currentChar) ctx ctx.currentChar with
        ⟨s3, ctx3⟩
    simp only [hss]
    exact scanGo_acc_ge _ _ _ _ (by simp only [Context.nextPos]; omega)
  · simp only [hip]
    rcases hsw : scanSwitch s2 ctx2 ctx.currentChar ctx.nextPos with _ | ⟨s4, ctx4, pos4, b⟩
    · simp only [hsw]
      exact scanGo_acc_ge _ _ _ _ (by simp only [Context.nextPos]; omega)
    · have hi := scanSwitch_inv s2 ctx2 ctx.currentChar ctx.nextPos _ hsw
      have hpos : 1 ≤ pos4 := hi.2 (by simp only [Context.nextPos]; omega)
      cases b
      · simp only [hsw]
        exact scanGo_acc_ge _ _ _ _ hpos
      · simp only [hsw]
        exact hpos

theorem scan_pres (s : Scanner) (ctx : Context) :
    (scan s ctx).2.1.source = s.source ∧ (scan s ctx).2.1.sourcePos = s.sourcePos := by
  unfold scan
  exact scanGo_pres _ s ctx 0

theorem Scan_eof (s : Scanner) (h : s.source.length ≤ s.sourcePos) : Scan s = none := by
  unfold Scan
  rw [if_pos h]

theorem Scan_progress (s : Scanner) (h : s.sourcePos < s.source.length) :
    ∃ tks s2, Scan s = some (tks, s2) ∧
      s.sourcePos + 1 ≤ s2.sourcePos ∧ s2.source = s.source := by
  have hnext : (Context.newContext (s.source.drop s.sourcePos)).next = true := by
    simp only [Context.newContext, Context.reset, Context.resetBuffer, Context.next,
      List.length_drop]
    simp only [decide_eq_true_eq]
    omega
  rcases hsc : scan s (Context.newContext (s.source.drop s.sourcePos)) with ⟨pn, s3, ctx3⟩
  have hpn : 1 ≤ pn := by
    have hx := scan_pos s _ hnext
    rw [hsc] at hx
    exact hx
  have hpres := scan_pres s (Context.newContext (s.source.drop s.sourcePos))
  rw [hsc] at hpres
  have hsp3 : s3.sourcePos = s.sourcePos := hpres.2
  refine ⟨ctx3.tokens, { s3 with sourcePos := s3.sourcePos + pn }, ?_, ?_, ?_⟩
  · unfold Scan
    rw [if_neg (by omega)]
    simp only [hsc]
  · show s.sourcePos + 1 ≤ s3.sourcePos + pn
    omega
  · exact hpres.1

end Scanner

theorem tokenizeGo_complete (fuel : Nat) :
    ∀ (s : Scanner) (acc : List Token), s.source.length - s.sourcePos < fuel →
      (tokenizeGo fuel s acc).2 = true := by
  induction fuel with
  | zero =>
    intro s acc h
    omega
  | succ f ih =>
    intro s acc h
    simp only [tokenizeGo]
    by_cases he : s.source.length ≤ s.sourcePos
    · simp only [Scanner.Scan_eof s he]
    · have hlt : s.sourcePos < s.source.length := by omega
      rcases Scanner.Scan_progress s hlt with ⟨tks, s2, hscan, hadv, hsrc⟩
      simp only [hscan]
      exact ih s2 (acc ++ tks) (by rw [hsrc]; omega)

end Yomlette

namespace Yomlette

/-- **C9.** Tokenization terminates on every input: when the scanner's
source position has reached the end of the source, Scan returns the io.EOF
sentinel; otherwise Scan returns a token batch and strictly advances the
source position by at least one rune while leaving the source unchanged,
so the Tokenize loop over Scan calls reaches the io.EOF break on every
input (its run flag is true). -/
theorem c9_termination (s : Scanner) (src : List Char) :
    (s.source.length ≤ s.sourcePos → s.Scan = none) ∧
    (s.sourcePos < s.source.length →
      ∃ tks s2, s.Scan = some (tks, s2) ∧
        s.sourcePos + 1 ≤ s2.sourcePos ∧ s2.source = s.source) ∧
    (tokenizeRun src).2 = true := by
  refine ⟨Scanner.Scan_eof s, Scanner.Scan_progress s, ?_⟩
  unfold tokenizeRun
  apply tokenizeGo_complete
  simp only [Scanner.init, zeroScanner]
  omega

/-- Witness for C9: a scanner at end of input yields the sentinel, a fresh
scanner on "a" advances, and tokenizing "a" completes. -/
theorem c9_termination_witness :
    (zeroScanner.source.length ≤ zeroScanner.sourcePos ∧ zeroScanner.Scan = none) ∧
    ((zeroScanner.init ['a']).sourcePos < (zeroScanner.init ['a']).source.length ∧
      ∃ tks s2, (zeroScanner.init ['a']).Scan = some (tks, s2) ∧
        (zeroScanner.init ['a']).sourcePos + 1 ≤ s2.sourcePos ∧
        s2.source = (zeroScanner.init ['a']).source) ∧
    (tokenizeRun ['a']).2 = true :=
  ⟨⟨by decide, (c9_termination zeroScanner ['a']).1 (by decide)⟩,
    ⟨by decide, (c9_termination (zeroScanner.init ['a']) ['a']).2.1 (by decide)⟩,
    (c9_termination (zeroScanner.init ['a']) ['a']).2.2⟩

end Yomlette

namespace Yomlette
namespace Scanner

theorem scanSwitch_plain (s : Scanner) (ctx : Context) (c : Char) (pos : Nat)
    (hc : plainScalarChar c) : scanSwitch s ctx c pos = none := by
  simp only [plainScalarChar, List.mem_cons, List.not_mem_nil, or_false, not_or] at hc
  obtain ⟨h1, h2, h3, h4, h5, h6, h7, h8, h9, h10, h11, h12, h13, h14, h15, h16, h17,
    h18, h19, h20, h21, h22, h23⟩ := hc
  simp [scanSwitch, h1, h2, h3, h4, h5, h6, h7, h8, h9, h10, h11, h12, h13, h14, h15,
    h16, h17, h18, h19, h20, h21, h22, h23]

theorem c1_scanGo_step (src : List Char) (k fuel acc : Nat) (hk1 : 1 ≤ k)
    (hk : k < src.length) (hc : plainScalarChar (src.getD k (Char.ofNat 0))) :
    scanGo (fuel + 1) (c1Scanner src k) (c1Context src k) acc =
    scanGo fuel (c1Scanner src (k + 1)) (c1Context src (k + 1)) (k + 1) := by
  have hnext : (c1Context src k).next = true := by
    simp [c1Context, Context.next]
    omega
  simp only [scanGo]
  rw [if_pos hnext]
  have hcur : (c1Context src k).currentChar = src.getD k (Char.ofNat 0) := rfl
  have hnp : (c1Context src k).nextPos = k + 1 := rfl
  rw [hcur, hnp]
  have hfc : (c1Scanner src k).isFirstCharAtLine = false := by
    simp [c1Scanner]
    omega
  have hupd : (c1Scanner src k).updateIndent (c1Context src k) (src.getD k (Char.ofNat 0)) =
      { c1Scanner src k with indentState := .keep } := by
    unfold updateIndent
    rw [if_neg (by simp [hfc]), if_neg (by simp [hfc]), if_pos (by simp [hfc])]
  rw [hupd]
  have hip : ({ c1Scanner src k with indentState := .keep } : Scanner).indentPhase
      (c1Context src k) (src.getD k (Char.ofNat 0)) =
      some ({ c1Scanner src k with indentState := .keep }, c1Context src k) := rfl
  simp only [hip]
  simp only [scanSwitch_plain _ _ _ _ hc]
  have htake : src.take (k + 1) = src.take k ++ [src.getD k (Char.ofNat 0)] := by
    rw [List.take_succ]
    rw [List.getElem?_eq_getElem hk]
    simp [List.getD, List.getElem?_eq_getElem hk]
  have hs : (({ c1Scanner src k with indentState := .keep } : Scanner).progressColumn
      (((c1Context src k).addBuf (src.getD k (Char.ofNat 0))
          ({ c1Scanner src k with indentState := .keep } : Scanner).pos).addOriginBuf
        (src.getD k (Char.ofNat 0))) 1).1 = c1Scanner src (k + 1) := by
    simp [progressColumn, c1Scanner]
    refine ⟨by omega, by omega, by rw [if_neg (by omega)]⟩
  have hk0 : ¬ k = 0 := by omega
  have hlen : (List.take k src).length = k := by
    simp [List.length_take]
    omega
  have hcq := hc
  simp only [plainScalarChar, List.mem_cons, List.not_mem_nil, or_false, not_or] at hcq
  have hsp : ¬ src.getD k (Char.ofNat 0) = ' ' :=
    hcq.2.2.2.2.2.2.2.2.2.2.2.2.2.2.2.2.2.2.2.2.2.1
  have htb : ¬ src.getD k (Char.ofNat 0) = '	' :=
    hcq.2.2.2.2.2.2.2.2.2.2.2.2.2.2.2.2.2.2.2.2.2.2
  simp only [List.getD_eq_getElem?_getD] at hsp htb
  have hc2 : (({ c1Scanner src k with indentState := .keep } : Scanner).progressColumn
      (((c1Context src k).addBuf (src.getD k (Char.ofNat 0))
          ({ c1Scanner src k with indentState := .keep } : Scanner).pos).addOriginBuf
        (src.getD k (Char.ofNat 0))) 1).2 = c1Context src (k + 1) := by
    simp [progressColumn, Context.progress, Context.addBuf, Context.addOriginBuf, c1Context,
      hlen, hk0, hsp, htb, htake]
  rw [hs, hc2]

theorem c1_scanGo_first (src : List Char) (fuel acc : Nat)
    (hk : 0 < src.length) (hc : plainScalarChar (src.getD 0 (Char.ofNat 0))) :
    scanGo (fuel + 1) (c1Scanner src 0) (c1Context src 0) acc =
    scanGo fuel (c1Scanner src 1) (c1Context src 1) 1 := by
  have hnext : (c1Context src 0).next = true := by
    simp [c1Context, Context.next]
    omega
  simp only [scanGo]
  rw [if_pos hnext]
  have hcur : (c1Context src 0).currentChar = src.getD 0 (Char.ofNat 0) := rfl
  have hnp : (c1Context src 0).nextPos = 1 := rfl
  rw [hcur, hnp]
  have hcq := hc
  simp only [plainScalarChar, List.mem_cons, List.not_mem_nil, or_false, not_or] at hcq
  simp only [List.getD_eq_getElem?_getD] at hcq
  have hnl : isNewLineChar (src[0]?.getD (Char.ofNat 0)) = false := by
    simp [isNewLineChar, hcq.2.2.2.2.2.2.2.2.2.2.2.2.2.2.2.2.2.2.2.1,
      hcq.2.2.2.2.2.2.2.2.2.2.2.2.2.2.2.2.2.2.2.2.1]
  have hsp0 : ¬ src[0]?.getD (Char.ofNat 0) = ' ' :=
    hcq.2.2.2.2.2.2.2.2.2.2.2.2.2.2.2.2.2.2.2.2.2.1
  have hupd : (c1Scanner src 0).updateIndent (c1Context src 0) (src.getD 0 (Char.ofNat 0)) =
      { c1Scanner src 0 with isFirstCharAtLine := false } := by
    unfold updateIndent
    rw [if_neg (by simp [hnl]), if_neg (by simp [c1Scanner, hsp0]),
      if_neg (by simp [c1Scanner])]
    simp [updateIndentLevel, updateIndentStateFromColumn, isNeededKeepPreviousIndentNum,
      isChangedToIndentStateUp, c1Scanner]
  rw [hupd]
  have hip : ({ c1Scanner src 0 with isFirstCharAtLine := false } : Scanner).indentPhase
      (c1Context src 0) (src.getD 0 (Char.ofNat 0)) =
      some ({ c1Scanner src 0 with isFirstCharAtLine := false }, c1Context src 0) := rfl
  simp only [hip]
  simp only [scanSwitch_plain _ _ _ _ hc]
  have htake : src.take 1 = [src.getD 0 (Char.ofNat 0)] := by
    rw [List.take_succ]
    rw [List.getElem?_eq_getElem hk]
    simp [List.getD, List.getElem?_eq_getElem hk]
  have htb0 : ¬ src[0]?.getD (Char.ofNat 0) = '	' :=
    hcq.2.2.2.2.2.2.2.2.2.2.2.2.2.2.2.2.2.2.2.2.2.2
  have hs : (({ c1Scanner src 0 with isFirstCharAtLine := false } : Scanner).progressColumn
      (((c1Context src 0).addBuf (src.getD 0 (Char.ofNat 0))
          ({ c1Scanner src 0 with isFirstCharAtLine := false } : Scanner).pos).addOriginBuf
        (src.getD 0 (Char.ofNat 0))) 1).1 = c1Scanner src 1 := by
    simp [progressColumn, c1Scanner]
  have hc2 : (({ c1Scanner src 0 with isFirstCharAtLine := false } : Scanner).progressColumn
      (((c1Context src 0).addBuf (src.getD 0 (Char.ofNat 0))
          ({ c1Scanner src 0 with isFirstCharAtLine := false } : Scanner).pos).addOriginBuf
        (src.getD 0 (Char.ofNat 0))) 1).2 = c1Context src 1 := by
    simp [progressColumn, Context.progress, Context.addBuf, Context.addOriginBuf, c1Context,
      Scanner.pos, c1Scanner, hsp0, htb0, htake]
  rw [hs, hc2]

theorem c1_buffered_end (src : List Char) (h1 : 1 ≤ src.length) :
    (c1Context src src.length).addBufferedTokenIfExists =
    { c1Context src src.length with
      bufPos := none
      buf := []
      obuf := []
      notSpaceCharPos := 0
      notSpaceOrgCharPos := 0
      tokens := [tokenNew src src ⟨1, 1, 0, 0, 0⟩] } := by
  have hn0 : ¬ src.length = 0 := by omega
  have hbs : (c1Context src src.length).bufferedSrc = src := by
    simp [Context.bufferedSrc, c1Context, List.take_take, List.take_length]
  unfold Context.addBufferedTokenIfExists Context.bufferedToken
  rw [if_neg (by simpa [c1Context] using hn0)]
  rw [hbs]
  rw [if_neg (by omega)]
  simp [Context.resetBuffer, Context.addToken, c1Context, Context.isBlockScalar, hn0]

theorem c1_scanGo_end (src : List Char) (fuel acc : Nat) (h1 : 1 ≤ src.length) :
    scanGo (fuel + 1) (c1Scanner src src.length) (c1Context src src.length) acc =
    (acc, c1Scanner src src.length,
      { c1Context src src.length with
        bufPos := none
        buf := []
        obuf := []
        notSpaceCharPos := 0
        notSpaceOrgCharPos := 0
        tokens := [tokenNew src src ⟨1, 1, 0, 0, 0⟩] }) := by
  have hnf : ¬ (c1Context src src.length).next = true := by
    simp [c1Context, Context.next]
  simp only [scanGo]
  rw [if_neg hnf]
  rw [c1_buffered_end src h1]

theorem c1_scanGo_run (src : List Char) :
    ∀ (j k : Nat), k + j = src.length → 1 ≤ k →
    (∀ i, k ≤ i → i < src.length → plainScalarChar (src.getD i (Char.ofNat 0))) →
    scanGo (j + 1) (c1Scanner src k) (c1Context src k) k =
    (src.length, c1Scanner src src.length,
      { c1Context src src.length with
        bufPos := none
        buf := []
        obuf := []
        notSpaceCharPos := 0
        notSpaceOrgCharPos := 0
        tokens := [tokenNew src src ⟨1, 1, 0, 0, 0⟩] }) := by
  intro j
  induction j with
  | zero =>
    intro k hkj hk1 hpl
    have hk : k = src.length := by omega
    rw [hk]
    exact c1_scanGo_end src 0 src.length (by omega)
  | succ j ih =>
    intro k hkj hk1 hpl
    have hk : k < src.length := by omega
    rw [c1_scanGo_step src k (j + 1) k hk1 hk (hpl k le_rfl hk)]
    exact ih (k + 1) (by omega) (by omega) (fun i hi hi2 => hpl i (by omega) hi2)

theorem c1_Scan (src : List Char) (h1 : 1 ≤ src.length)
    (hp : ∀ i, i < src.length → plainScalarChar (src.getD i (Char.ofNat 0))) :
    (zeroScanner.init src).Scan = some ([tokenNew src src ⟨1, 1, 0, 0, 0⟩],
      { c1Scanner src src.length with sourcePos := src.length }) := by
  unfold Scan
  have hne : ¬ ((zeroScanner.init src).source.length ≤ (zeroScanner.init src).sourcePos) := by
    simp only [Scanner.init, zeroScanner]
    omega
  rw [if_neg hne]
  have hctx : Context.newContext ((zeroScanner.init src).source.drop
      (zeroScanner.init src).sourcePos) = c1Context src 0 := by
    show Context.newContext (src.drop 0) = c1Context src 0
    rw [List.drop_zero]
    rfl
  rw [hctx]
  have hscan : scan (zeroScanner.init src) (c1Context src 0) =
      (src.length, c1Scanner src src.length,
        { c1Context src src.length with
          bufPos := none
          buf := []
          obuf := []
          notSpaceCharPos := 0
          notSpaceOrgCharPos := 0
          tokens := [tokenNew src src ⟨1, 1, 0, 0, 0⟩] }) := by
    unfold scan
    have hsz : (c1Context src 0).size = src.length := rfl
    rw [hsz]
    have hinit : zeroScanner.init src = c1Scanner src 0 := rfl
    rw [hinit]
    obtain ⟨m, hm⟩ : ∃ m, src.length = m + 1 := ⟨src.length - 1, by omega⟩
    rw [show src.length + 1 = (m + 1) + 1 from by omega]
    rw [c1_scanGo_first src (m + 1) 0 (by omega) (hp 0 (by omega))]
    exact c1_scanGo_run src m 1 (by omega) le_rfl (fun i hi hi2 => hp i hi2)
  simp only [hscan]
  simp [c1Scanner]

end Scanner

/-- **C1 (amended).** For a nonempty input consisting solely of plain
scalar characters (no structural punctuation, quoting, whitespace or line
breaks), tokenizing yields the single plain token carrying the whole input
as value and origin, so concatenating the origins reconstructs the input
exactly.  (For general inputs the round-trip fails: see the
counterexample, where a trailing newline is dropped.) -/
theorem c1_origin_roundtrip_amended (src : List Char) (h1 : src ≠ [])
    (hp : ∀ c ∈ src, plainScalarChar c) :
    tokenize src = [tokenNew src src ⟨1, 1, 0, 0, 0⟩] ∧
    ((tokenize src).map Token.origin).flatten = src := by
  have hlen : 1 ≤ src.length := by
    cases src with
    | nil => exact absurd rfl h1
    | cons a l => simp
  have hp2 : ∀ i, i < src.length → plainScalarChar (src.getD i (Char.ofNat 0)) := by
    intro i hi
    have hg : src.getD i (Char.ofNat 0) = src.get ⟨i, hi⟩ := by
      simp [List.getD_eq_getElem?_getD, List.getElem?_eq_getElem hi]
    rw [hg]
    exact hp _ (List.get_mem src i hi)
  have htok : tokenize src = [tokenNew src src ⟨1, 1, 0, 0, 0⟩] := by
    unfold tokenize tokenizeRun
    obtain ⟨m, hm⟩ : ∃ m, src.length = m + 1 := ⟨src.length - 1, by omega⟩
    rw [hm]
    simp only [tokenizeGo]
    simp only [Scanner.c1_Scan src hlen hp2]
    rw [Scanner.Scan_eof _ (by simp [c1Scanner])]
    simp
  exact ⟨htok, by rw [htok]; simp [tokenNew]⟩

/-- Witness for C1's amended theorem at the concrete plain input "ab". -/
theorem c1_origin_roundtrip_amended_witness :
    (['a', 'b'] : List Char) ≠ [] ∧ (∀ c ∈ (['a', 'b'] : List Char), plainScalarChar c) ∧
    tokenize ['a', 'b'] = [tokenNew ['a', 'b'] ['a', 'b'] ⟨1, 1, 0, 0, 0⟩] ∧
    ((tokenize ['a', 'b']).map Token.origin).flatten = ['a', 'b'] :=
  ⟨by decide, by decide,
    (c1_origin_roundtrip_amended ['a', 'b'] (by decide) (by decide)).1,
    (c1_origin_roundtrip_amended ['a', 'b'] (by decide) (by decide)).2⟩

end Yomlette
